import Mathlib

/-!
Verification of the task-flow operation catalogue of GitFourchette
(`gitfourchette/tasks/branchtasks.py` and `gitfourchette/tasks/stashtasks.py`)
against its natural-language specification.

Each Python task flow is shallowly embedded as a computable state-passing
program over a `FlowSt` record holding the accumulated `TaskEffects`, the
trace of steps performed so far, and the post-completion status fields.
Repository reads are taken from a `RepoState` snapshot; interactive answers,
external-process exit codes and other environment observations are explicit
arguments of each flow.  The flow engine itself (class `RepoTask`) is not
part of the two source modules, so the engine primitives are modelled from
the spec and say so in their doc comments.
-/

/-- Commit id.  The backend treats ids as opaque values; hashes are rendered
through an external short-hash helper, so a plain string suffices. -/
abbrev Oid := String

/-- Structural model of the Python prefix test (str.startswith), written on
character lists so that the kernel can evaluate it on literals. -/
def strStartsWith (s p : String) : Bool := p.data.isPrefixOf s.data

/-- Structural model of the Python suffix test (str.endswith). -/
def strEndsWith (s p : String) : Bool := p.data.reverse.isPrefixOf s.data.reverse

/-- Structural model of dropping the first n characters of a string. -/
def strDrop (s : String) (n : Nat) : String := ⟨s.data.drop n⟩

/-- Structural model of keeping the first n characters of a string. -/
def strTake (s : String) (n : Nat) : String := ⟨s.data.take n⟩

/-- Structural model of the character count of a string. -/
def strLength (s : String) : Nat := s.data.length

/-- EffectSet: bit-set of repository-state categories touched by an
operation.  Flags per the spec data model: Refs, Head, Workdir, Upstreams. -/
structure TaskEffects where
  refs : Bool := false
  head : Bool := false
  workdir : Bool := false
  upstreams : Bool := false
deriving DecidableEq, Repr

/-- Set union of two effect sets (the Python `|=` operator). -/
def TaskEffects.union (a b : TaskEffects) : TaskEffects :=
  ⟨a.refs || b.refs, a.head || b.head, a.workdir || b.workdir, a.upstreams || b.upstreams⟩

/-- Boolean subset test between effect sets. -/
def TaskEffects.sub (a b : TaskEffects) : Bool :=
  (!a.refs || b.refs) && (!a.head || b.head) && (!a.workdir || b.workdir) && (!a.upstreams || b.upstreams)

instance : LE TaskEffects := ⟨fun a b => a.sub b = true⟩

instance (a b : TaskEffects) : Decidable (a ≤ b) := by
  change Decidable (a.sub b = true)
  infer_instance

/-- The empty effect set. -/
def TaskEffects.none : TaskEffects := {}

/-- PrereqSet: bit-set of preconditions an operation requires.
Flags per the spec: NoConflicts, NoUnborn, NoDetached, NoStagedChanges. -/
structure TaskPrereqs where
  noConflicts : Bool := false
  noUnborn : Bool := false
  noDetached : Bool := false
  noStagedChanges : Bool := false
deriving DecidableEq, Repr

/-- Union of two prereq sets. -/
def TaskPrereqs.union (a b : TaskPrereqs) : TaskPrereqs :=
  ⟨a.noConflicts || b.noConflicts, a.noUnborn || b.noUnborn,
   a.noDetached || b.noDetached, a.noStagedChanges || b.noStagedChanges⟩

/-- The empty prereq set. -/
def TaskPrereqs.none : TaskPrereqs := {}

/-- Merge-analysis flags as returned by the backend (`pygit2.MergeAnalysis`
bit flags UP_TO_DATE, FASTFORWARD, NORMAL, UNBORN). -/
structure AnalysisFlags where
  upToDate : Bool := false
  fastForward : Bool := false
  normal : Bool := false
  unborn : Bool := false
deriving DecidableEq, Repr

/-- Upstream (remote-tracking) branch data read by the flows: `shorthand`
(such as origin/main), `name` (the full refname) and `branchName`
(the name without the refs/remotes/ portion). -/
structure UpstreamInfo where
  shorthand : String
  name : String
  branchName : String
  target : Oid
deriving DecidableEq, Repr

/-- Local branch data read by the flows.  `name` is the shorthand;
`fullName` is the full refname (Branch.name in pygit2); `upstreamName` is
Branch.upstream_name (meaningful when `upstream` is present). -/
structure BranchInfo where
  name : String
  fullName : String
  target : Oid
  isCheckedOut : Bool
  upstream : Option UpstreamInfo
  upstreamName : String := ""
deriving DecidableEq, Repr

/-- Remote branch data needed by NewBranchFromRef. -/
structure RemoteBranchInfo where
  name : String
  shorthand : String
  remoteName : String
  target : Oid
deriving DecidableEq, Repr

/-- Snapshot of the repository state read by the flows through the backend
API (spec section 6: read operations return typed domain values). -/
structure RepoState where
  localBranches : List BranchInfo := []
  remoteBranches : List RemoteBranchInfo := []
  headBranchShorthand : String := ""
  headBranchFullname : String := ""
  headShorthand : String := ""
  headIsDetached : Bool := false
  headIsUnborn : Bool := false
  headCommitId : Oid := ""
  headTarget : Oid := ""
  anyConflicts : Bool := false
  anyStagedChanges : Bool := false
  statusPaths : List String := []
  submodules : List String := []
  unstagedChanges : List String := []
  dangerousDetachedHead : Bool := false
  mergeAnalysisAt : Oid → Option String → AnalysisFlags := fun _ _ => {}
  mergePref : Nat := 0
  commitMessage : Oid → String := fun _ => ""
  findStashIndex : Oid → Nat := fun _ => 0
  refsPointingAt : Oid → List String := fun _ => []
  resolveCommit : String → Option Oid := fun _ => Option.none

/-- Lookup of a local branch by shorthand name (repo.branches.local[name]). -/
def RepoState.findLocalBranch (repo : RepoState) (name : String) : Option BranchInfo :=
  repo.localBranches.find? (fun b => b.name == name)

/-- Lookup of a remote branch by shorthand name (repo.branches.remote[name]). -/
def RepoState.findRemoteBranch (repo : RepoState) (name : String) : Option RemoteBranchInfo :=
  repo.remoteBranches.find? (fun b => b.name == name)

/-- Names of all local branches (repo.listall_branches(BranchType.LOCAL)). -/
def RepoState.localBranchNames (repo : RepoState) : List String :=
  repo.localBranches.map BranchInfo.name

/-- External pure helpers that live outside the two source modules
(toolbox/porcelain utilities).  They are opaque collaborators per the spec
(localization and formatting are out of scope), so they are supplied as an
environment record rather than re-implemented. -/
structure Toolbox where
  shortHash : Oid → String := fun o => strTake o 7
  stripStashMessage : String → String := id
  withUniqueSuffix : String → List String → String := fun s _ => s
  messageSummary : String → String := id
  splitRemoteBranchShorthand : String → String × String := fun s => ("", s)
  pygit2SupportsRecursion : Bool := true

/-- Human-facing messages.  Localized text formatting is out of scope per the
spec, so each distinct message template used by the flows is one constructor
carrying the dynamic values substituted into the template. -/
inductive Msg where
  | alreadyCheckedOut (name : String)
  | askSwitch (name : String)
  | detachedHeadWarning (headShort name : String)
  | switchedToBranch (name : String)
  | branchRenamed (old new : String)
  | branchFolderRenamed (old new : String) (n : Nat)
  | cannotDeleteCurrentBranch (name : String)
  | askDeleteBranch (name : String)
  | branchDeleted (name shortTip : String)
  | cannotDeleteFolderWithCurrent (folder current : String)
  | askDeleteBranchFolder (folder : String) (n : Nat)
  | branchFolderDeleted (n : Nat) (folder : String)
  | branchCreated (name shortTip : String)
  | branchTracks (localName remoteName : String)
  | branchTracksNothing (localName : String)
  | branchReset (name shortTip mode : String)
  | cannotFastForwardNoUpstream (name : String)
  | noFastForwardNecessary (localName remoteName : String) (ahead : Bool)
  | mergeConflictsAbort
  | mergeStagedAbort
  | mergeUpToDate (mine theirs : String)
  | mergeUnbornAbort
  | askStashAndReapply
  | askMergeMayCauseConflicts (theirs mine : String)
  | askFastForward (mine theirs targetShort : String) (blockedByConfig : Bool)
  | mergingInto (theirs mine : String)
  | fastForwardedTo (mine theirs : String)
  | nothingToStash
  | nothingToStashSubmodules
  | filesStashed (n : Nat)
  | askApplyStash (stashMessage : String)
  | stashAppliedAndDeleted (stashMessage : String)
  | stashApplied (stashMessage : String)
  | stashAppliedWithConflicts (stashMessage : String)
  | stashCouldNotBeApplied (stashMessage : String)
  | stashConflictsWarning (stashMessage : String)
  | stashNotDeletedNote
  | conflictsCausedByStashTitle
  | gitErrorApplyStash (stderr : String) (stashMessage : String) (stashNotDeletedNote : Bool)
  | cmdLine (args : List String)
  | askDropStash (stashMessage : String)
  | stashDropped (stashMessage : String)
deriving DecidableEq, Repr

/-- AbortSignal value: optional message, optional severity icon, optional
detail lines (spec data model). -/
structure AbortSignal where
  message : Option Msg := none
  icon : Option String := none
  details : List Msg := []
deriving DecidableEq, Repr

/-- Navigation target set by a flow (NavLocator). -/
inductive NavLoc where
  | inRef (refName : String)
  | inWorkdir
  | inCommit (id : Oid)
deriving DecidableEq, Repr

/-- Every way a flow can terminate early. -/
inductive FlowExit where
  | abortSignal (sig : AbortSignal)
  | processFailure (exitCode : Int) (stderr : String) (args : List String)
  | divergentBranches (lb : BranchInfo) (rb : UpstreamInfo)
  | notImplementedCase (why : String)
  | assertionFailed (why : String)
  | lookupFailure (what : String)
  | prereqFailure (unmet : TaskPrereqs)
deriving DecidableEq, Repr

/-- Identifies which dialog a flow opened (the dialog internals are an opaque
service per the spec; the payload records the initial data handed to it). -/
inductive DialogKind where
  | textInput (title : String) (initialText : String)
  | newBranch (initialName : String) (upstreams : List String)
  | resetHead (branchName : String)
  | stash
  | applyStashBox (stashMessage : String) (tickDelete : Bool)
deriving DecidableEq, Repr

/-- One step performed by a flow, as recorded in the execution trace. -/
inductive Event where
  | confirm (prompt : Msg)
  | dialog (kind : DialogKind)
  | enterWorkerThread
  | enterUiThread
  | callGit (args : List String) (autoFail : Bool)
  | subtask (name : String) (fx : TaskEffects)
  | mergeAnalysisCall (commit : Oid) (ref : Option String)
  | refreshIndexCall
  | renameLocalBranch (old new : String)
  | deleteLocalBranch (name : String)
  | createBranchFromCommit (name : String) (tip : Oid)
  | editUpstream (localName remoteName : String)
  | clearShadowUpstream (localName : String)
  | createStash (message : String) (paths : List String)
  | restoreFilesFromHead (paths : List String)
  | backupWritten (file : String) (commitId : Oid) (originalMessage : String)
  | showWarningBox (title : Msg) (text : List Msg)
  | recallLookup (needle : String)
  | setDraftCommitMessage
deriving DecidableEq, Repr

/-- Effects a subtask trace entry contributed to its parent; the empty set
for every other kind of event. -/
def Event.subFx : Event → TaskEffects
  | .subtask _ fx => fx
  | _ => {}

/-- One entry of the execution trace: the step and the EffectSet observed
when the step happened. -/
structure TraceEntry where
  ev : Event
  fx : TaskEffects
deriving DecidableEq, Repr

/-- Per-execution mutable state owned by a task: the accumulated EffectSet,
the trace of performed steps, and the post-completion fields. -/
structure FlowSt where
  effects : TaskEffects := {}
  trace : List TraceEntry := []
  postStatus : Option Msg := none
  jumpTo : Option NavLoc := none

/-- Result of running a flow program on a state: normal completion or an
early exit; the state reached so far is kept in both cases (effects already
committed before an abort are preserved, per the spec). -/
inductive FlowOut (α : Type) where
  | ok (a : α) (st : FlowSt)
  | exit (e : FlowExit) (st : FlowSt)

/-- A flow program: a state transformer with early exit. -/
def FlowM (α : Type) : Type := FlowSt → FlowOut α

/-- Monadic composition of flow programs; an early exit skips every further
step (spec: raising AbortSignal terminates the flow with no further steps). -/
def Flow.bind {α β : Type} (m : FlowM α) (k : α → FlowM β) : FlowM β := fun st =>
  match m st with
  | .ok a st1 => k a st1
  | .exit e st1 => .exit e st1

/-- Flow program that performs no step. -/
def Flow.pure {α : Type} (a : α) : FlowM α := fun st => .ok a st

instance : Monad FlowM where
  pure := Flow.pure
  bind := Flow.bind

/-- Terminate the flow now with the given exit. -/
def Flow.exit {α : Type} (e : FlowExit) : FlowM α := fun st => .exit e st

/-- Record one step in the trace, stamped with the EffectSet accumulated so
far. -/
def Flow.record (ev : Event) : FlowM Unit := fun st =>
  .ok () { st with trace := st.trace ++ [⟨ev, st.effects⟩] }

/-- OR extra flags into the accumulated EffectSet (the `self.effects |=`
statements of the source). -/
def Flow.orFx (d : TaskEffects) : FlowM Unit := fun st =>
  .ok () { st with effects := st.effects.union d }

/-- Set the post-completion status message (`self.postStatus = ...`). -/
def Flow.setPostStatus (m : Msg) : FlowM Unit := fun st =>
  .ok () { st with postStatus := some m }

/-- Set the post-completion navigation target (`self.jumpTo = ...`). -/
def Flow.setJumpTo (l : NavLoc) : FlowM Unit := fun st =>
  .ok () { st with jumpTo := some l }

/-- Snapshot of the choice a user made on a confirmation prompt:
whether the prompt was accepted at all, the final state of the optional
checkbox shown with it, and whether the alternate action button (rather
than the default accept button) was clicked. -/
structure ConfirmAnswer where
  accepted : Bool := true
  checkboxTicked : Bool := false
  clickedActionButton : Bool := false
deriving DecidableEq, Repr

/-- Exit code and captured output of one external git invocation, as
observed by the flow through the process driver. -/
structure GitOutcome where
  exitCode : Int := 0
  stderr : String := ""
deriving DecidableEq, Repr

/-- Modelled from the spec: `flowConfirm` of the task engine (class
`RepoTask`, not under src/).  Spec 4.6: the flow suspends until the UI
resolves the prompt; cancellation is a distinguished choice on which the
operation raises a messageless AbortSignal; otherwise the user choice is
returned to the flow. -/
def Flow.flowConfirm (prompt : Msg) (ans : ConfirmAnswer) : FlowM ConfirmAnswer := do
  Flow.record (.confirm prompt)
  if ans.accepted then
    Flow.pure ans
  else
    Flow.exit (.abortSignal {})

/-- Modelled from the spec: `flowDialog` of the task engine (not under
src/).  Spec 4.6: suspends until the dialog is resolved; rejecting the
dialog aborts the flow with no message, accepting returns the collected
form values. -/
def Flow.flowDialog {α : Type} (kind : DialogKind) (ans : Option α) : FlowM α := do
  Flow.record (.dialog kind)
  match ans with
  | some a => Flow.pure a
  | none => Flow.exit (.abortSignal {})

/-- Modelled from the spec: `flowCallGit` of the task engine (not under
src/).  Spec 4.4: runs the external process; when `autoFail` is set and the
process exits non-zero, raises ProcessFailure carrying the exit code, the
captured error text and the command; when `autoFail` is clear a non-zero
exit is returned as data for the flow to inspect.  The engine default for
the flag is fail-on-nonzero. -/
def Flow.flowCallGit (args : List String) (autoFail : Bool) (res : GitOutcome) : FlowM GitOutcome := do
  Flow.record (.callGit args autoFail)
  if autoFail && res.exitCode != 0 then
    Flow.exit (.processFailure res.exitCode res.stderr args)
  else
    Flow.pure res

/-- Modelled from the spec: `flowEnterWorkerThread` (engine, not under
src/): request that the next steps run on a worker context. -/
def Flow.flowEnterWorkerThread : FlowM Unit :=
  Flow.record .enterWorkerThread

/-- Modelled from the spec: `flowEnterUiThread` (engine, not under src/):
request that the next steps run on the UI context. -/
def Flow.flowEnterUiThread : FlowM Unit :=
  Flow.record .enterUiThread

/-- State a flow starts from: empty EffectSet, empty trace, no status. -/
def initialFlowSt : FlowSt := {}

/-- State reached by a flow run, whether it completed or exited early. -/
def FlowOut.stOf {α : Type} : FlowOut α → FlowSt
  | .ok _ st => st
  | .exit _ st => st

/-- Modelled from the spec: `flowSubtask` of the task engine (not under
src/).  Spec 4.5 and 4.3: the nested flow runs to completion with its own
accumulator; its resulting EffectSet is OR-ed into the parent before the
parent continues, and its AbortSignal or error propagates and aborts the
parent, with partial effects preserved. -/
def Flow.flowSubtask (name : String) (sub : FlowM Unit) : FlowM Unit := fun st =>
  let out := sub initialFlowSt
  let subFx := out.stOf.effects
  let fx2 := st.effects.union subFx
  let st2 : FlowSt := { st with effects := fx2, trace := st.trace ++ [⟨.subtask name subFx, fx2⟩] }
  match out with
  | .ok _ _ => .ok () st2
  | .exit e _ => .exit e st2

/-- Modelled from the spec: the precondition gate (spec 4.2), evaluating
each requested flag against the live state; missing flags are ignored.
Returns the set of requested conditions that are violated. -/
def unmetPrereqs (req : TaskPrereqs) (repo : RepoState) : TaskPrereqs where
  noConflicts := req.noConflicts && repo.anyConflicts
  noUnborn := req.noUnborn && repo.headIsUnborn
  noDetached := req.noDetached && repo.headIsDetached
  noStagedChanges := req.noStagedChanges && repo.anyStagedChanges

/-- In-flow prerequisite check (`self.checkPrereqs(...)` as used by
FastForwardBranch); fails the flow with a PrereqViolation-style exit when a
requested condition does not hold. -/
def Flow.checkPrereqs (req : TaskPrereqs) (repo : RepoState) : FlowM Unit :=
  let unmet := unmetPrereqs req repo
  if unmet = TaskPrereqs.none then Flow.pure () else Flow.exit (.prereqFailure unmet)

/-- How one task invocation ended, as handed back to the UI layer. -/
inductive Outcome where
  | completed
  | aborted (sig : AbortSignal)
  | failed (e : FlowExit)
  | prereqViolation (unmet : TaskPrereqs)
deriving DecidableEq, Repr

/-- What the executor returns to the UI: the outcome, the accumulated
EffectSet, the step trace, and the post-completion fields. -/
structure RunResult where
  outcome : Outcome
  effects : TaskEffects
  trace : List TraceEntry
  postStatus : Option Msg
  jumpTo : Option NavLoc

/-- Modelled from the spec: the executor loop (spec 4.1, steps 3 to 6),
mapping a finished flow program onto the result handed to the UI.  The
EffectSet accumulated before an abort or error is still returned. -/
def runFlow (m : FlowM Unit) : RunResult :=
  match m initialFlowSt with
  | .ok _ st => ⟨.completed, st.effects, st.trace, st.postStatus, st.jumpTo⟩
  | .exit (.abortSignal sig) st => ⟨.aborted sig, st.effects, st.trace, st.postStatus, st.jumpTo⟩
  | .exit e st => ⟨.failed e, st.effects, st.trace, st.postStatus, st.jumpTo⟩

/-- Modelled from the spec: the executor entry point (spec 4.1, steps 1
and 2): evaluate the declared PrereqSet against live state; a violation
fails immediately with no steps executed and no UI shown; otherwise the
flow is driven to its end. -/
def runTask (req : TaskPrereqs) (repo : RepoState) (m : FlowM Unit) : RunResult :=
  let unmet := unmetPrereqs req repo
  if unmet = TaskPrereqs.none then runFlow m
  else ⟨.prereqViolation unmet, {}, [], none, none⟩
/-- Modelled from the spec: gitdriver.argsIf lives outside src/.  Per its
uses in the flows it contributes the extra argument only when the condition
holds. -/
def argsIf (c : Bool) (s : String) : List String := if c then [s] else []

/-- Modelled from the spec: the porcelain ref-name helper lives outside
src/.  Per its uses it splits a full refname into its namespace portion and
the shorthand. -/
def refSplit (ref : String) : String × String :=
  if strStartsWith ref "refs/heads/" then ("refs/heads/", strDrop ref 11)
  else if strStartsWith ref "refs/remotes/" then ("refs/remotes/", strDrop ref 13)
  else ("", ref)

/-- Python str.removeprefix: drop the given leading portion when present. -/
def removePrefixStr (s p : String) : String :=
  if strStartsWith s p then strDrop s (strLength p) else s

/-- Modelled from the spec: porcelain get_branch_from_refname lives outside
src/.  Per its use in MergeBranch it resolves a full refname to the branch
it denotes; only the branch tip is read afterwards. -/
def getBranchTargetFromRefname (repo : RepoState) (refname : String) : Option Oid :=
  let ps := refSplit refname
  if ps.1 == "refs/heads/" then (repo.findLocalBranch ps.2).map BranchInfo.target
  else if ps.1 == "refs/remotes/" then (repo.findRemoteBranch ps.2).map RemoteBranchInfo.target
  else Option.none

/-- Translation of `backupStash` (stashtasks.py): ask the Trash service
(outside src/, so its answer is an input) for a new file; when none is
provided, return silently; otherwise write the recovery text, which
contains the full stash commit id and the original stash message. -/
def backupStash (repo : RepoState) (stashCommitId : Oid) (trashFile : Option String) : FlowM Unit :=
  match trashFile with
  | Option.none => Flow.pure ()
  | some f => Flow.record (.backupWritten f stashCommitId (repo.commitMessage stashCommitId))

/-- Values collected by the stash dialog. -/
structure StashDialogResult where
  tickedPaths : List String
  message : String
  keepIntact : Bool
deriving DecidableEq, Repr

/-- Declared PrereqSet of NewStash. -/
def NewStash.prereqs : TaskPrereqs := { noConflicts := true, noUnborn := true }

/-- Translation of `NewStash.flow` (stashtasks.py). -/
def NewStash.flow (repo : RepoState) (paths : List String) (dlgRes : Option StashDialogResult) : FlowM Unit := do
  let status := repo.statusPaths
  if status.isEmpty then
    Flow.exit (.abortSignal ⟨some .nothingToStash, some "information", []⟩)
  else do
    let status2 := status.filter (fun p => !repo.submodules.contains p)
    if status2.isEmpty then
      Flow.exit (.abortSignal ⟨some .nothingToStashSubmodules, some "information", []⟩)
    else do
      let _paths := paths
      let d ← Flow.flowDialog .stash dlgRes
      Flow.flowEnterWorkerThread
      Flow.orFx { refs := true }
      Flow.record (.createStash d.message d.tickedPaths)
      let _ ← (if !d.keepIntact then do
          Flow.orFx { workdir := true }
          Flow.record (.restoreFilesFromHead d.tickedPaths)
        else
          Flow.pure ())
      Flow.setPostStatus (.filesStashed d.tickedPaths.length)

/-- Environment observations consumed by one ApplyStash execution: the
answer to the apply box (with the delete checkbox state; rejection is
represented by `Option.none`), the git invocation outcome, the conflict
state of the index refreshed after the invocation, and the file the Trash
service hands to backupStash. -/
structure ApplyStashInputs where
  dlgAns : Option Bool := some true
  git : GitOutcome := {}
  conflictsAfterApply : Bool := false
  trashFile : Option String := Option.none
deriving DecidableEq, Repr

/-- Declared PrereqSet of ApplyStash. -/
def ApplyStash.prereqs : TaskPrereqs := { noConflicts := true, noStagedChanges := true }

/-- Translation of `ApplyStash.flow` (stashtasks.py). -/
def ApplyStash.flow (repo : RepoState) (tb : Toolbox) (stashCommitId : Oid)
    (tickDelete silent : Bool) (inp : ApplyStashInputs) : FlowM Unit := do
  let stashMessage := tb.stripStashMessage (repo.commitMessage stashCommitId)
  let deleteAfterApply ← (if silent then
      Flow.pure true
    else
      Flow.flowDialog (.applyStashBox stashMessage tickDelete) inp.dlgAns)
  Flow.setJumpTo .inWorkdir
  Flow.orFx { workdir := true }
  let _ ← (if deleteAfterApply then do
      Flow.orFx { refs := true }
      backupStash repo stashCommitId inp.trashFile
    else
      Flow.pure ())
  let stashIndex := repo.findStashIndex stashCommitId
  let popOrApply := if deleteAfterApply then "pop" else "apply"
  let driver ← Flow.flowCallGit ["stash", popOrApply, "--index", toString stashIndex] false inp.git
  Flow.flowEnterWorkerThread
  Flow.record .refreshIndexCall
  let anyConflicts := inp.conflictsAfterApply
  Flow.flowEnterUiThread
  if driver.exitCode == 0 then
    if deleteAfterApply then
      Flow.setPostStatus (.stashAppliedAndDeleted stashMessage)
    else
      Flow.setPostStatus (.stashApplied stashMessage)
  else if anyConflicts then do
    Flow.setPostStatus (.stashAppliedWithConflicts stashMessage)
    Flow.record (.showWarningBox .conflictsCausedByStashTitle
      ([.stashConflictsWarning stashMessage]
        ++ (if deleteAfterApply then [Msg.stashNotDeletedNote] else [])))
  else do
    Flow.setPostStatus (.stashCouldNotBeApplied stashMessage)
    Flow.exit (.abortSignal
      ⟨some (.gitErrorApplyStash driver.stderr stashMessage deleteAfterApply), Option.none,
       [.cmdLine ["stash", popOrApply, "--index", toString stashIndex]]⟩)

/-- Translation of `DropStash.flow` (stashtasks.py). -/
def DropStash.flow (repo : RepoState) (tb : Toolbox) (stashCommitId : Oid)
    (confirmAns : ConfirmAnswer) (trashFile : Option String) (git : GitOutcome) : FlowM Unit := do
  let stashMessage := tb.stripStashMessage (repo.commitMessage stashCommitId)
  let _ ← Flow.flowConfirm (.askDropStash stashMessage) confirmAns
  backupStash repo stashCommitId trashFile
  Flow.orFx { refs := true }
  let stashIndex := repo.findStashIndex stashCommitId
  let stashName := "stash@" ++ "\x7b" ++ toString stashIndex ++ "\x7d"
  let _ ← Flow.flowCallGit ["stash", "drop", stashName] true git
  Flow.setPostStatus (.stashDropped stashMessage)

/-- Modelled from the spec: the RefreshRepo task lives outside src/; it
re-reads repository state for the views and performs no further repository
mutation, so it is modelled as a flow with no steps. -/
def RefreshRepo.flow : FlowM Unit := Flow.pure ()

/-- Environment observations consumed by one SwitchBranch execution. -/
structure SwitchBranchInputs where
  confirmAnswer : ConfirmAnswer := {}
  detachedConfirmAnswer : ConfirmAnswer := {}
  git : GitOutcome := {}
deriving DecidableEq, Repr

/-- Declared PrereqSet of SwitchBranch. -/
def SwitchBranch.prereqs : TaskPrereqs := { noConflicts := true }

/-- Translation of `SwitchBranch.flow` (branchtasks.py). -/
def SwitchBranch.flow (repo : RepoState) (tb : Toolbox) (newBranch : String)
    (askForConfirmation recurseSubmodules refreshUnderDetachedWarning : Bool)
    (inp : SwitchBranchInputs) : FlowM Unit := do
  if strStartsWith newBranch "refs/heads/" then
    Flow.exit (.assertionFailed "newBranch must be a shorthand")
  else
    match repo.findLocalBranch newBranch with
    | Option.none => Flow.exit (.lookupFailure newBranch)
    | some branchObj =>
      if branchObj.isCheckedOut then
        Flow.exit (.abortSignal ⟨some (.alreadyCheckedOut newBranch), some "information", []⟩)
      else do
        let recurse ← (if askForConfirmation then do
            let anySubmodules := (!repo.submodules.isEmpty) && tb.pygit2SupportsRecursion
            let a ← Flow.flowConfirm (.askSwitch newBranch) inp.confirmAnswer
            Flow.pure (anySubmodules && a.checkboxTicked)
          else
            Flow.pure recurseSubmodules)
        let headId := repo.headCommitId
        let _ ← (if repo.dangerousDetachedHead && (branchObj.target != headId) then do
            let _ ← (if refreshUnderDetachedWarning then
                Flow.flowSubtask "RefreshRepo" RefreshRepo.flow
              else
                Flow.pure ())
            let _ ← Flow.flowConfirm (.detachedHeadWarning (tb.shortHash headId) newBranch)
                inp.detachedConfirmAnswer
            Flow.pure ()
          else
            Flow.pure ())
        Flow.orFx { refs := true, head := true }
        let _ ← Flow.flowCallGit
          (["checkout", "--progress", "--no-guess"]
            ++ argsIf recurse "--recurse-submodules" ++ [newBranch]) true inp.git
        Flow.setPostStatus (.switchedToBranch newBranch)

/-- Translation of `RenameBranch.flow` (branchtasks.py). -/
def RenameBranch.flow (repo : RepoState) (oldBranchName : String)
    (dlgText : Option String) : FlowM Unit := do
  if strStartsWith oldBranchName "refs/heads/" then
    Flow.exit (.assertionFailed "oldBranchName must be a shorthand")
  else do
    let _forbiddenBranchNames := repo.localBranchNames.erase oldBranchName
    let newBranchName ← Flow.flowDialog (.textInput "Rename local branch" oldBranchName) dlgText
    if newBranchName == oldBranchName then
      Flow.exit (.abortSignal {})
    else do
      Flow.flowEnterWorkerThread
      Flow.orFx { refs := true }
      Flow.record (.renameLocalBranch oldBranchName newBranchName)
      Flow.setPostStatus (.branchRenamed oldBranchName newBranchName)

/-- The branch-name transformation local to RenameBranchFolder.flow. -/
def transformBranchName (oldFolderName newFolderName branchName : String) : String :=
  removePrefixStr (newFolderName ++ removePrefixStr branchName oldFolderName) "/"

/-- Translation of `RenameBranchFolder.flow` (branchtasks.py). -/
def RenameBranchFolder.flow (repo : RepoState) (oldFolderRefName : String)
    (dlgText : Option String) : FlowM Unit := do
  let ps := refSplit oldFolderRefName
  let oldFolderName := ps.2
  if ps.1 != "refs/heads/" then
    Flow.exit (.assertionFailed "folder refname must be under the heads namespace")
  else if strEndsWith oldFolderName "/" then
    Flow.exit (.assertionFailed "folder name must not end in a slash")
  else do
    let oldFolderNameSlash := oldFolderName ++ "/"
    let folderBranches := repo.localBranchNames.filter (fun b => strStartsWith b oldFolderNameSlash)
    let newFolderName ← Flow.flowDialog (.textInput "Rename branch folder" oldFolderName) dlgText
    if newFolderName == oldFolderName then
      Flow.exit (.abortSignal {})
    else do
      Flow.flowEnterWorkerThread
      Flow.orFx { refs := true }
      folderBranches.forM (fun b =>
        Flow.record (.renameLocalBranch b (transformBranchName oldFolderName newFolderName b)))
      Flow.setPostStatus (.branchFolderRenamed oldFolderName newFolderName folderBranches.length)

/-- Translation of `DeleteBranch.flow` (branchtasks.py). -/
def DeleteBranch.flow (repo : RepoState) (tb : Toolbox) (localBranchName : String)
    (confirmAns : ConfirmAnswer) : FlowM Unit := do
  if strStartsWith localBranchName "refs/heads/" then
    Flow.exit (.assertionFailed "localBranchName must be a shorthand")
  else if localBranchName == repo.headBranchShorthand then
    Flow.exit (.abortSignal ⟨some (.cannotDeleteCurrentBranch localBranchName), Option.none, []⟩)
  else do
    let _ ← Flow.flowConfirm (.askDeleteBranch localBranchName) confirmAns
    Flow.flowEnterWorkerThread
    match repo.findLocalBranch localBranchName with
    | Option.none => Flow.exit (.lookupFailure localBranchName)
    | some b => do
      Flow.orFx { refs := true }
      Flow.record (.deleteLocalBranch localBranchName)
      Flow.setPostStatus (.branchDeleted localBranchName (tb.shortHash b.target))

/-- Translation of `DeleteBranchFolder.flow` (branchtasks.py). -/
def DeleteBranchFolder.flow (repo : RepoState) (folderRefName : String)
    (confirmAns : ConfirmAnswer) : FlowM Unit := do
  let ps := refSplit folderRefName
  let folderName := ps.2
  if ps.1 != "refs/heads/" then
    Flow.exit (.assertionFailed "folder refname must be under the heads namespace")
  else if strEndsWith folderName "/" then
    Flow.exit (.assertionFailed "folder name must not end in a slash")
  else do
    let folderNameSlash := folderName ++ "/"
    let currentBranch := repo.headBranchShorthand
    if strStartsWith currentBranch folderNameSlash then
      Flow.exit (.abortSignal ⟨some (.cannotDeleteFolderWithCurrent folderName currentBranch), Option.none, []⟩)
    else do
      let folderBranches := repo.localBranchNames.filter (fun b => strStartsWith b folderNameSlash)
      let _ ← Flow.flowConfirm (.askDeleteBranchFolder folderName folderBranches.length) confirmAns
      Flow.flowEnterWorkerThread
      Flow.orFx { refs := true }
      folderBranches.forM (fun b => Flow.record (.deleteLocalBranch b))
      Flow.setPostStatus (.branchFolderDeleted folderBranches.length folderName)

/-- Values collected by the new-branch dialog. -/
structure NewBranchDialogResult where
  name : String
  switchTo : Bool
  recurseSubmodules : Bool
  upstreamChecked : Bool
  upstreamText : String
deriving DecidableEq, Repr

/-- The upstream-collection loop of NewBranchFromCommit.flow: walk the refs
pointing at the tip, fill in the local name when still empty, and gather
candidate upstream shorthands; a branch named by a heads ref must exist. -/
def collectNewBranchInfo (repo : RepoState) (tb : Toolbox) :
    List String → String → List String → Except String (String × List String)
  | [], localName, ups => .ok (localName, ups)
  | r :: rest, localName, ups =>
    let ps := refSplit r
    if ps.1 == "refs/heads/" then
      let localName1 := if localName == "" then ps.2 else localName
      match repo.findLocalBranch ps.2 with
      | Option.none => .error ps.2
      | some branch =>
        let ups1 := match branch.upstream with
          | some u => ups ++ [u.shorthand]
          | Option.none => ups
        collectNewBranchInfo repo tb rest localName1 ups1
    else if ps.1 == "refs/remotes/" then
      let localName1 := if localName == "" then (tb.splitRemoteBranchShorthand ps.2).2 else localName
      collectNewBranchInfo repo tb rest localName1 (ups ++ [ps.2])
    else
      collectNewBranchInfo repo tb rest localName ups

/-- Deduplication keeping the first occurrence of each element (Python
`dict.fromkeys`, which preserves insertion order). -/
def dedupFirst : List String → List String → List String
  | [], _ => []
  | x :: xs, seen => if seen.contains x then dedupFirst xs seen else x :: dedupFirst xs (x :: seen)

/-- Translation of `NewBranchFromCommit.flow` (branchtasks.py). -/
def NewBranchFromCommit.flow (repo : RepoState) (tb : Toolbox) (tip : Oid)
    (localName suggestUpstream : String) (checkUpstream : Bool)
    (dlgRes : Option NewBranchDialogResult) (subInputs : SwitchBranchInputs) : FlowM Unit := do
  let tipHashText := tb.shortHash tip
  let atHeadTip := !repo.headIsUnborn && !repo.headIsDetached && (repo.headTarget == tip)
  let _tipHashText := if atHeadTip then "HEAD (" ++ tipHashText ++ ")" else tipHashText
  let localName0 := if atHeadTip && localName == "" then repo.headShorthand else localName
  let refsPointingHere := repo.refsPointingAt tip
  match collectNewBranchInfo repo tb refsPointingHere localName0 [] with
  | .error missing => Flow.exit (.lookupFailure missing)
  | .ok (localName1, upstreams0) => do
    let forbiddenBranchNames := repo.localBranchNames
    let localName2 := tb.withUniqueSuffix localName1 forbiddenBranchNames
    let upstreams := dedupFirst upstreams0 []
    let _commitMessage := tb.messageSummary (repo.commitMessage tip)
    let _suggest := (suggestUpstream, checkUpstream)
    let d ← Flow.flowDialog (.newBranch localName2 upstreams) dlgRes
    let chosenName := d.name
    let switchTo := d.switchTo
    let recurseSubmodules := d.recurseSubmodules
    let trackUpstream := if d.upstreamChecked then d.upstreamText else ""
    Flow.flowEnterWorkerThread
    Flow.record (.createBranchFromCommit chosenName tip)
    Flow.orFx { refs := true, upstreams := true }
    Flow.setPostStatus (.branchCreated chosenName (tb.shortHash tip))
    let _ ← (if trackUpstream != "" then
        Flow.record (.editUpstream chosenName trackUpstream)
      else
        Flow.pure ())
    if switchTo then do
      Flow.orFx { head := true }
      Flow.flowEnterUiThread
      Flow.flowSubtask "SwitchBranch"
        (SwitchBranch.flow repo tb chosenName false recurseSubmodules true subInputs)
    else
      Flow.pure ()

/-- Declared PrereqSet of NewBranchFromHead. -/
def NewBranchFromHead.prereqs : TaskPrereqs := { noUnborn := true }

/-- Translation of `NewBranchFromRef.flow` (branchtasks.py). -/
def NewBranchFromRef.flow (repo : RepoState) (tb : Toolbox) (refname : String)
    (dlgRes : Option NewBranchDialogResult) (subInputs : SwitchBranchInputs) : FlowM Unit := do
  let ps := refSplit refname
  if ps.1 == "refs/heads/" then
    match repo.findLocalBranch ps.2 with
    | Option.none => Flow.exit (.lookupFailure ps.2)
    | some branch => do
      let upstream := match branch.upstream with
        | some u => u.shorthand
        | Option.none => ""
      Flow.flowSubtask "NewBranchFromCommit"
        (NewBranchFromCommit.flow repo tb branch.target ps.2 upstream false dlgRes subInputs)
  else if ps.1 == "refs/remotes/" then
    match repo.findRemoteBranch ps.2 with
    | Option.none => Flow.exit (.lookupFailure ps.2)
    | some branch => do
      let upstream := branch.shorthand
      let name := removePrefixStr ps.2 (branch.remoteName ++ "/")
      Flow.flowSubtask "NewBranchFromCommit"
        (NewBranchFromCommit.flow repo tb branch.target name upstream true dlgRes subInputs)
  else
    Flow.exit (.notImplementedCase "Unsupported ref namespace")

/-- Translation of `NewBranchFromHead.flow` (branchtasks.py). -/
def NewBranchFromHead.flow (repo : RepoState) (tb : Toolbox)
    (dlgRes : Option NewBranchDialogResult) (subInputs : SwitchBranchInputs) : FlowM Unit := do
  if repo.headIsDetached then
    Flow.flowSubtask "NewBranchFromCommit"
      (NewBranchFromCommit.flow repo tb repo.headCommitId "" "" false dlgRes subInputs)
  else
    Flow.flowSubtask "NewBranchFromRef"
      (NewBranchFromRef.flow repo tb repo.headBranchFullname dlgRes subInputs)

/-- Translation of `EditUpstreamBranch.flow` (branchtasks.py). -/
def EditUpstreamBranch.flow (repo : RepoState) (localBranchName remoteBranchName : String) : FlowM Unit := do
  match repo.findLocalBranch localBranchName with
  | Option.none => Flow.exit (.lookupFailure localBranchName)
  | some b => do
    let currentUpstreamName := match b.upstream with
      | Option.none => ""
      | some u => u.branchName
    if remoteBranchName == currentUpstreamName then
      Flow.exit (.abortSignal {})
    else do
      Flow.flowEnterWorkerThread
      Flow.orFx { upstreams := true }
      Flow.record (.editUpstream localBranchName remoteBranchName)
      Flow.record (.clearShadowUpstream localBranchName)
      if remoteBranchName != "" then
        Flow.setPostStatus (.branchTracks localBranchName remoteBranchName)
      else
        Flow.setPostStatus (.branchTracksNothing localBranchName)

/-- The reset mode picked in the reset dialog. -/
inductive ResetMode where
  | hard
  | mixed
  | soft
deriving DecidableEq, Repr

/-- Lower-case name of a reset mode (resetMode.name.lower()). -/
def ResetMode.nameLower : ResetMode → String
  | .hard => "hard"
  | .mixed => "mixed"
  | .soft => "soft"

/-- Values collected by the reset dialog. -/
structure ResetHeadResult where
  mode : ResetMode
  recurseSubmodules : Bool
deriving DecidableEq, Repr

/-- Declared PrereqSet of ResetHead. -/
def ResetHead.prereqs : TaskPrereqs := { noUnborn := true, noDetached := true }

/-- Translation of `ResetHead.flow` (branchtasks.py). -/
def ResetHead.flow (repo : RepoState) (tb : Toolbox) (onto : Oid)
    (dlgRes : Option ResetHeadResult) (git : GitOutcome) : FlowM Unit := do
  let branchName := repo.headBranchShorthand
  let _commitMessage := repo.commitMessage onto
  let _hasSubmodules := !repo.submodules.isEmpty
  let d ← Flow.flowDialog (.resetHead branchName) dlgRes
  Flow.orFx { refs := true, workdir := true }
  let modeArg := "--" ++ d.mode.nameLower
  if !(["--hard", "--mixed", "--soft"].contains modeArg) then
    Flow.exit (.assertionFailed "unexpected reset mode")
  else do
    let _ ← Flow.flowCallGit
      (["reset", modeArg] ++ argsIf d.recurseSubmodules "--recurse-submodules" ++ [onto]) true git
    Flow.setPostStatus (.branchReset branchName (tb.shortHash onto) modeArg)

/-- Translation of `FastForwardBranch._withGit` (branchtasks.py): merge
analysis first, then either nothing to do (returns true), a fast-forward
through the external process, or a divergence error. -/
def FastForwardBranch.withGit (repo : RepoState) (branch : BranchInfo)
    (git : GitOutcome) : FlowM Bool := do
  Flow.flowEnterWorkerThread
  match branch.upstream with
  | Option.none => Flow.exit (.lookupFailure "upstream")
  | some upstream => do
    Flow.record (.mergeAnalysisCall upstream.target (some branch.fullName))
    let analysis := repo.mergeAnalysisAt upstream.target (some branch.fullName)
    if analysis.upToDate then
      Flow.pure true
    else if analysis == { fastForward := true, normal := true } then do
      Flow.orFx { refs := true }
      let args ← (if branch.isCheckedOut then do
          Flow.orFx { head := true }
          Flow.pure ["merge", "--ff-only", "--progress", branch.upstreamName]
        else
          Flow.pure ["push", ".", branch.upstreamName ++ ":" ++ branch.fullName])
      Flow.flowEnterUiThread
      let driver ← Flow.flowCallGit args false git
      if driver.exitCode != 0 then
        Flow.exit (.divergentBranches branch upstream)
      else
        Flow.pure false
    else if analysis == { normal := true } then
      Flow.exit (.divergentBranches branch upstream)
    else
      Flow.exit (.notImplementedCase "Cannot fast-forward with this analysis")

/-- Translation of `FastForwardBranch.flow` (branchtasks.py). -/
def FastForwardBranch.flow (repo : RepoState) (localBranchName : String)
    (git : GitOutcome) (upToDateConfirm : ConfirmAnswer) : FlowM Unit := do
  let name ← (if localBranchName == "" then do
      Flow.checkPrereqs { noUnborn := true, noDetached := true } repo
      Flow.pure repo.headBranchShorthand
    else
      Flow.pure localBranchName)
  match repo.findLocalBranch name with
  | Option.none => Flow.exit (.lookupFailure name)
  | some branch =>
    match branch.upstream with
    | Option.none =>
      Flow.exit (.abortSignal ⟨some (.cannotFastForwardNoUpstream branch.name), Option.none, []⟩)
    | some upstream => do
      let remoteBranchName := upstream.shorthand
      let upToDate ← FastForwardBranch.withGit repo branch git
      let ahead := upToDate && (upstream.target != branch.target)
      Flow.setJumpTo (.inRef ("refs/heads/" ++ name))
      Flow.flowEnterUiThread
      if upToDate then do
        Flow.setPostStatus (.noFastForwardNecessary name remoteBranchName ahead)
        let _ ← Flow.flowConfirm (.noFastForwardNecessary name remoteBranchName ahead) upToDateConfirm
        Flow.pure ()
      else
        Flow.pure ()

/-- A recovery action offered by an error presentation. -/
inductive ErrorAction where
  | invokeMergeBranch (refName : String)
deriving DecidableEq, Repr

/-- What an onError hook presents to the user. -/
inductive ErrorPresentation where
  | genericError (e : FlowExit)
  | divergenceWarning (localShorthand remoteShorthand : String) (recovery : Option ErrorAction)
deriving DecidableEq, Repr

/-- Translation of `FastForwardBranch.onError` (branchtasks.py): a
DivergentBranchesError is shown as a warning naming both branches; when the
divergent local branch is the checked-out branch, a button is added whose
action invokes the MergeBranch operation on the upstream refname; every
other error falls back to the generic presentation. -/
def FastForwardBranch.onError (e : FlowExit) : ErrorPresentation :=
  match e with
  | .divergentBranches lb rb =>
    .divergenceWarning lb.name rb.shorthand
      (if lb.isCheckedOut then some (.invokeMergeBranch rb.name) else Option.none)
  | e => .genericError e

/-- Translation of `MergeBranch.confirmFastForward` (branchtasks.py): the
default button fast-forwards; the alternate action button asks for a merge
commit instead. -/
def MergeBranch.confirmFastForward (tb : Toolbox) (myShorthand theirShorthand : String)
    (target : Oid) (autoFastForwardOptionName : String) (ans : ConfirmAnswer) : FlowM Bool := do
  let result ← Flow.flowConfirm
    (.askFastForward myShorthand theirShorthand (tb.shortHash target)
      (autoFastForwardOptionName != "")) ans
  Flow.pure result.clickedActionButton

/-- Translation of `MergeBranch._withGit` (branchtasks.py): the merge
process runs with fail-on-nonzero off (a non-zero exit means conflicts and
only logs a warning), and a wanted merge commit fills the draft commit
message afterwards. -/
def MergeBranch.withGit (wantMergeCommit : Bool) (theirShorthand : String)
    (git : GitOutcome) : FlowM Unit := do
  Flow.orFx { refs := true, workdir := true }
  let driver ← Flow.flowCallGit
    (["merge", "--no-commit", "--no-edit", "--progress", "--verbose"]
      ++ argsIf wantMergeCommit "--no-ff"
      ++ argsIf (!wantMergeCommit) "--ff-only"
      ++ [theirShorthand]) false git
  let _stderrScrollback := driver.stderr
  if wantMergeCommit then
    Flow.record .setDraftCommitMessage
  else
    Flow.pure ()

/-- Environment observations consumed by one MergeBranch execution. -/
structure MergeBranchInputs where
  ffConfirm : ConfirmAnswer := {}
  stashConfirm : ConfirmAnswer := {}
  conflictsConfirm : ConfirmAnswer := {}
  git : GitOutcome := {}
  stashOid : Oid := ""
  reapply : ApplyStashInputs := {}
deriving DecidableEq, Repr

/-- Translation of `MergeBranch.flow` (branchtasks.py).  The merge-analysis
dispatch computes the wantMergeCommit and stashAndReapply values;
`Option.none` stands for the early return taken when the user declines the
stash-and-reapply offer. -/
def MergeBranch.flow (repo : RepoState) (tb : Toolbox) (them : String)
    (silentFastForward : Bool) (autoFastForwardOptionName : String)
    (inp : MergeBranchInputs) : FlowM Unit := do
  if !(strStartsWith them "refs/") then
    Flow.exit (.assertionFailed "them must be a full refname")
  else
    match getBranchTargetFromRefname repo them with
    | Option.none => Flow.exit (.lookupFailure them)
    | some target => do
      let theirShorthand := (refSplit them).2
      Flow.flowEnterWorkerThread
      Flow.record .refreshIndexCall
      let anyStagedFiles := repo.anyStagedChanges
      let anyConflicts := repo.anyConflicts
      let myShorthand := repo.headBranchShorthand
      Flow.record (.mergeAnalysisCall target Option.none)
      let analysis := repo.mergeAnalysisAt target Option.none
      Flow.flowEnterUiThread
      if anyConflicts then
        Flow.exit (.abortSignal ⟨some .mergeConflictsAbort, Option.none, []⟩)
      else if anyStagedFiles then
        Flow.exit (.abortSignal ⟨some .mergeStagedAbort, Option.none, []⟩)
      else if analysis == { upToDate := true } then
        Flow.exit (.abortSignal
          ⟨some (.mergeUpToDate myShorthand theirShorthand), some "information", []⟩)
      else if analysis == { unborn := true } then
        Flow.exit (.abortSignal ⟨some .mergeUnbornAbort, Option.none, []⟩)
      else do
        let ws ← (if analysis == { fastForward := true, normal := true } then
            (if silentFastForward then
              (if repo.unstagedChanges.length > 0 then do
                let a ← Flow.flowConfirm .askStashAndReapply inp.stashConfirm
                if !a.accepted then
                  Flow.pure Option.none
                else
                  Flow.pure (some (false, true))
              else
                Flow.pure (some (false, false)))
            else do
              let w ← MergeBranch.confirmFastForward tb myShorthand theirShorthand target
                autoFastForwardOptionName inp.ffConfirm
              Flow.pure (some (w, false)))
          else if analysis == { normal := true } then do
            let _ ← Flow.flowConfirm (.askMergeMayCauseConflicts theirShorthand myShorthand)
              inp.conflictsConfirm
            Flow.pure (some (true, false))
          else
            Flow.exit (.notImplementedCase "Unsupported MergeAnalysis"))
        match ws with
        | Option.none => Flow.pure ()
        | some (wantMergeCommit, stashAndReapply) => do
          let _ ← (if stashAndReapply then do
              let files := repo.statusPaths
              Flow.record (.createStash "auto stash" files)
              Flow.record (.restoreFilesFromHead files)
            else
              Flow.pure ())
          MergeBranch.withGit wantMergeCommit theirShorthand inp.git
          let _ ← (if wantMergeCommit then do
              Flow.setJumpTo .inWorkdir
              Flow.setPostStatus (.mergingInto theirShorthand myShorthand)
            else
              Flow.setPostStatus (.fastForwardedTo myShorthand theirShorthand))
          if stashAndReapply then
            ApplyStash.flow repo tb inp.stashOid true true inp.reapply
          else
            Flow.pure ()

/-- Translation of `RecallCommit.flow` (branchtasks.py). -/
def RecallCommit.flow (repo : RepoState) (tb : Toolbox) (dlgText : Option String) : FlowM Unit := do
  let needle ← Flow.flowDialog (.textInput "Recall lost commit" "") dlgText
  Flow.flowEnterWorkerThread
  Flow.orFx { refs := true }
  Flow.record (.recallLookup needle)
  match repo.resolveCommit needle with
  | Option.none => Flow.exit (.lookupFailure needle)
  | some commitId => do
    let branchName := "recall-" ++ tb.shortHash commitId
    let branchName1 := tb.withUniqueSuffix branchName repo.localBranchNames
    Flow.record (.createBranchFromCommit branchName1 commitId)
    Flow.setJumpTo (.inCommit commitId)
/-- Run SwitchBranch as a task (prereq gate plus flow). -/
def SwitchBranch.run (repo : RepoState) (tb : Toolbox) (newBranch : String)
    (askForConfirmation recurseSubmodules refreshUnderDetachedWarning : Bool)
    (inp : SwitchBranchInputs) : RunResult :=
  runTask SwitchBranch.prereqs repo
    (SwitchBranch.flow repo tb newBranch askForConfirmation recurseSubmodules
      refreshUnderDetachedWarning inp)

/-- Run RenameBranch as a task. -/
def RenameBranch.run (repo : RepoState) (oldBranchName : String) (dlgText : Option String) : RunResult :=
  runTask TaskPrereqs.none repo (RenameBranch.flow repo oldBranchName dlgText)

/-- Run RenameBranchFolder as a task. -/
def RenameBranchFolder.run (repo : RepoState) (oldFolderRefName : String) (dlgText : Option String) : RunResult :=
  runTask TaskPrereqs.none repo (RenameBranchFolder.flow repo oldFolderRefName dlgText)

/-- Run DeleteBranch as a task. -/
def DeleteBranch.run (repo : RepoState) (tb : Toolbox) (localBranchName : String)
    (confirmAns : ConfirmAnswer) : RunResult :=
  runTask TaskPrereqs.none repo (DeleteBranch.flow repo tb localBranchName confirmAns)

/-- Run DeleteBranchFolder as a task. -/
def DeleteBranchFolder.run (repo : RepoState) (folderRefName : String)
    (confirmAns : ConfirmAnswer) : RunResult :=
  runTask TaskPrereqs.none repo (DeleteBranchFolder.flow repo folderRefName confirmAns)

/-- Run NewBranchFromCommit as a task. -/
def NewBranchFromCommit.run (repo : RepoState) (tb : Toolbox) (tip : Oid)
    (localName suggestUpstream : String) (checkUpstream : Bool)
    (dlgRes : Option NewBranchDialogResult) (subInputs : SwitchBranchInputs) : RunResult :=
  runTask TaskPrereqs.none repo
    (NewBranchFromCommit.flow repo tb tip localName suggestUpstream checkUpstream dlgRes subInputs)

/-- Run NewBranchFromHead as a task. -/
def NewBranchFromHead.run (repo : RepoState) (tb : Toolbox)
    (dlgRes : Option NewBranchDialogResult) (subInputs : SwitchBranchInputs) : RunResult :=
  runTask NewBranchFromHead.prereqs repo (NewBranchFromHead.flow repo tb dlgRes subInputs)

/-- Run NewBranchFromRef as a task. -/
def NewBranchFromRef.run (repo : RepoState) (tb : Toolbox) (refname : String)
    (dlgRes : Option NewBranchDialogResult) (subInputs : SwitchBranchInputs) : RunResult :=
  runTask TaskPrereqs.none repo (NewBranchFromRef.flow repo tb refname dlgRes subInputs)

/-- Run EditUpstreamBranch as a task. -/
def EditUpstreamBranch.run (repo : RepoState) (localBranchName remoteBranchName : String) : RunResult :=
  runTask TaskPrereqs.none repo (EditUpstreamBranch.flow repo localBranchName remoteBranchName)

/-- Run ResetHead as a task. -/
def ResetHead.run (repo : RepoState) (tb : Toolbox) (onto : Oid)
    (dlgRes : Option ResetHeadResult) (git : GitOutcome) : RunResult :=
  runTask ResetHead.prereqs repo (ResetHead.flow repo tb onto dlgRes git)

/-- Run FastForwardBranch as a task (its prereqs are checked inside the
flow, only when no explicit branch name is given). -/
def FastForwardBranch.run (repo : RepoState) (localBranchName : String)
    (git : GitOutcome) (upToDateConfirm : ConfirmAnswer) : RunResult :=
  runTask TaskPrereqs.none repo (FastForwardBranch.flow repo localBranchName git upToDateConfirm)

/-- Run MergeBranch as a task. -/
def MergeBranch.run (repo : RepoState) (tb : Toolbox) (them : String)
    (silentFastForward : Bool) (autoFastForwardOptionName : String)
    (inp : MergeBranchInputs) : RunResult :=
  runTask TaskPrereqs.none repo
    (MergeBranch.flow repo tb them silentFastForward autoFastForwardOptionName inp)

/-- Run RecallCommit as a task. -/
def RecallCommit.run (repo : RepoState) (tb : Toolbox) (dlgText : Option String) : RunResult :=
  runTask TaskPrereqs.none repo (RecallCommit.flow repo tb dlgText)

/-- Run NewStash as a task. -/
def NewStash.run (repo : RepoState) (paths : List String)
    (dlgRes : Option StashDialogResult) : RunResult :=
  runTask NewStash.prereqs repo (NewStash.flow repo paths dlgRes)

/-- Run ApplyStash as a task. -/
def ApplyStash.run (repo : RepoState) (tb : Toolbox) (stashCommitId : Oid)
    (tickDelete silent : Bool) (inp : ApplyStashInputs) : RunResult :=
  runTask ApplyStash.prereqs repo (ApplyStash.flow repo tb stashCommitId tickDelete silent inp)

/-- Run DropStash as a task. -/
def DropStash.run (repo : RepoState) (tb : Toolbox) (stashCommitId : Oid)
    (confirmAns : ConfirmAnswer) (trashFile : Option String) (git : GitOutcome) : RunResult :=
  runTask TaskPrereqs.none repo (DropStash.flow repo tb stashCommitId confirmAns trashFile git)

/-- The EffectSet observed at each recorded step, in execution order. -/
def FlowSt.snapshots (st : FlowSt) : List TaskEffects := st.trace.map TraceEntry.fx

/-- Monotonicity invariant over a flow state: step-wise EffectSet
observations never shrink, every observation is below the current
accumulator, and so is the EffectSet contributed by each subtask step. -/
def Mono (st : FlowSt) : Prop :=
  List.Pairwise (· ≤ ·) st.snapshots
  ∧ (∀ e ∈ st.snapshots, e ≤ st.effects)
  ∧ (∀ t ∈ st.trace, t.ev.subFx ≤ st.effects)

/-- A flow program preserves the monotonicity invariant, whether it
completes or exits early. -/
def Preserves {α : Type} (m : FlowM α) : Prop :=
  ∀ st, Mono st → Mono (m st).stOf

/-- The EffectSet observed at each recorded step of a finished run. -/
def RunResult.snapshots (r : RunResult) : List TaskEffects := r.trace.map TraceEntry.fx

/-- The EffectSet each trace entry contributed as a subtask (the empty set
for non-subtask steps). -/
def subtaskEffects (tr : List TraceEntry) : List TaskEffects := tr.map (fun t => t.ev.subFx)

/-- Union of a list of effect sets. -/
def unionAll (l : List TaskEffects) : TaskEffects := l.foldl TaskEffects.union {}

/-- Effect monotonicity of one finished run: observations never shrink step
to step, every observation is below the final EffectSet, and the final
EffectSet contains the union of all subtask contributions. -/
def MonoRun (r : RunResult) : Prop :=
  List.Pairwise (· ≤ ·) r.snapshots
  ∧ (∀ e ∈ r.snapshots, e ≤ r.effects)
  ∧ unionAll (subtaskEffects r.trace) ≤ r.effects

/-- Fixture for the SwitchBranch witness: the checked-out branch. -/
def branchC4 : BranchInfo :=
  { name := "main", fullName := "refs/heads/main", target := "1234567abcd",
    isCheckedOut := true, upstream := Option.none }

/-- Fixture for the SwitchBranch witness: a repository whose current branch
main is asked for again. -/
def repoC4 : RepoState := { localBranches := [branchC4], headBranchShorthand := "main" }

/-- Fixture for the DeleteBranch witness: the branch to delete. -/
def branchC6 : BranchInfo :=
  { name := "feature", fullName := "refs/heads/feature", target := "abc1234def0",
    isCheckedOut := false, upstream := Option.none }

/-- Fixture for the DeleteBranch witness: main is checked out, feature is
deletable. -/
def repoC6 : RepoState := { localBranches := [branchC6], headBranchShorthand := "main" }

/-- Fixture for the MergeBranch counterexample and witness: the branch to
merge. -/
def branchC2 : BranchInfo :=
  { name := "dev", fullName := "refs/heads/dev", target := "t0commit",
    isCheckedOut := false, upstream := Option.none }

/-- Fixture for the MergeBranch counterexample and witness: a repository
with unresolved conflicts and a branch dev to merge. -/
def repoC2 : RepoState :=
  { localBranches := [branchC2], headBranchShorthand := "main", anyConflicts := true }

/-- Fixture for the process-fatality witness: an upstream branch. -/
def upstreamC3 : UpstreamInfo :=
  { shorthand := "origin/main", name := "refs/remotes/origin/main",
    branchName := "origin/main", target := "aaaa1111bbb" }

/-- Fixture for the process-fatality witness: a local branch tracking the
upstream. -/
def branchC3 : BranchInfo :=
  { name := "main", fullName := "refs/heads/main", target := "cccc2222ddd",
    isCheckedOut := false, upstream := some upstreamC3, upstreamName := "refs/remotes/origin/main" }

/-- Fixture for the process-fatality witness: merge analysis reports that a
fast-forward is possible. -/
def repoC3 : RepoState :=
  { localBranches := [branchC3], headBranchShorthand := "other",
    mergeAnalysisAt := fun _ _ => { fastForward := true, normal := true } }

/-- Fixture for the divergence claims: the upstream branch. -/
def upstreamC7 : UpstreamInfo :=
  { shorthand := "origin/topic", name := "refs/remotes/origin/topic",
    branchName := "origin/topic", target := "cafe0001111" }

/-- Fixture for the divergence claims: a local branch that is not checked
out. -/
def branchC7 : BranchInfo :=
  { name := "topic", fullName := "refs/heads/topic", target := "feed0002222",
    isCheckedOut := false, upstream := some upstreamC7, upstreamName := "refs/remotes/origin/topic" }

/-- Fixture for the divergence claims: the same branch, checked out. -/
def branchC7co : BranchInfo :=
  { name := "topic", fullName := "refs/heads/topic", target := "feed0002222",
    isCheckedOut := true, upstream := some upstreamC7, upstreamName := "refs/remotes/origin/topic" }

/-- Fixture for the divergence claims: merge analysis reports NORMAL only
(divergent histories). -/
def repoC7 : RepoState :=
  { localBranches := [branchC7], headBranchShorthand := "main",
    mergeAnalysisAt := fun _ _ => { normal := true } }

/-- Fixture for the divergence claims: merge analysis reports that a
fast-forward is possible, but the process will exit non-zero. -/
def repoC7ff : RepoState :=
  { localBranches := [branchC7], headBranchShorthand := "main",
    mergeAnalysisAt := fun _ _ => { fastForward := true, normal := true } }

/-- Fixture for the ApplyStash conflicts witness: the stash commit message
read by the flow. -/
def repoC8 : RepoState := { commitMessage := fun _ => "stash msg" }

/-- Fixture for the ApplyStash conflicts witness: deletion requested, the
apply command exits non-zero, conflicts appear in the refreshed index. -/
def inpC8 : ApplyStashInputs :=
  { dlgAns := some true, git := { exitCode := 1, stderr := "conflict" },
    conflictsAfterApply := true, trashFile := some "T.txt" }

/-- Fixture for the backup counterexample: the stash message and index read
by DropStash. -/
def repoC9 : RepoState :=
  { commitMessage := fun _ => "WIP on main: things", findStashIndex := fun _ => 0 }

/-- Fixture for the backup-ordering witness. -/
def repoC9w : RepoState :=
  { commitMessage := fun _ => "stash m1", findStashIndex := fun _ => 4 }

/-- Fixture for the backup-ordering witness: deletion requested and a trash
file granted. -/
def inpC9w : ApplyStashInputs :=
  { dlgAns := some true, git := {}, conflictsAfterApply := false,
    trashFile := some "DELETED_STASH.txt" }

/-- Fixture for the NewStash witness: two dirty files, no submodules. -/
def repoC10 : RepoState := { statusPaths := ["a.txt", "b.txt"] }

/-- Fixture for the NewStash witness: stash dialog answered with keep
intact ticked. -/
def dKeepC10 : StashDialogResult :=
  { tickedPaths := ["a.txt"], message := "wip", keepIntact := true }

/-- Fixture for the NewStash witness: stash dialog answered with keep
intact unticked. -/
def dRestoreC10 : StashDialogResult :=
  { tickedPaths := ["a.txt"], message := "wip", keepIntact := false }

theorem TaskEffects.le_refl (a : TaskEffects) : a ≤ a := by
  rcases a with ⟨r, h, w, u⟩
  cases r <;> cases h <;> cases w <;> cases u <;> decide

theorem TaskEffects.le_trans {a b c : TaskEffects} (h1 : a ≤ b) (h2 : b ≤ c) : a ≤ c := by
  rcases a with ⟨r1, h1x, w1, u1⟩
  rcases b with ⟨r2, h2x, w2, u2⟩
  rcases c with ⟨r3, h3x, w3, u3⟩
  revert h1 h2
  cases r1 <;> cases h1x <;> cases w1 <;> cases u1 <;>
    cases r2 <;> cases h2x <;> cases w2 <;> cases u2 <;>
    cases r3 <;> cases h3x <;> cases w3 <;> cases u3 <;> decide

theorem TaskEffects.le_union_left (a b : TaskEffects) : a ≤ a.union b := by
  rcases a with ⟨r1, h1, w1, u1⟩
  rcases b with ⟨r2, h2, w2, u2⟩
  cases r1 <;> cases h1 <;> cases w1 <;> cases u1 <;>
    cases r2 <;> cases h2 <;> cases w2 <;> cases u2 <;> decide

theorem TaskEffects.le_union_right (a b : TaskEffects) : b ≤ a.union b := by
  rcases a with ⟨r1, h1, w1, u1⟩
  rcases b with ⟨r2, h2, w2, u2⟩
  cases r1 <;> cases h1 <;> cases w1 <;> cases u1 <;>
    cases r2 <;> cases h2 <;> cases w2 <;> cases u2 <;> decide

theorem TaskEffects.none_le (a : TaskEffects) : TaskEffects.none ≤ a := by
  rcases a with ⟨r, h, w, u⟩
  cases r <;> cases h <;> cases w <;> cases u <;> decide

theorem TaskEffects.union_le {a b c : TaskEffects} (h1 : a ≤ c) (h2 : b ≤ c) : a.union b ≤ c := by
  rcases a with ⟨r1, h1x, w1, u1⟩
  rcases b with ⟨r2, h2x, w2, u2⟩
  rcases c with ⟨r3, h3x, w3, u3⟩
  revert h1 h2
  cases r1 <;> cases h1x <;> cases w1 <;> cases u1 <;>
    cases r2 <;> cases h2x <;> cases w2 <;> cases u2 <;>
    cases r3 <;> cases h3x <;> cases w3 <;> cases u3 <;> decide

theorem mono_initial : Mono initialFlowSt := by
  refine ⟨?_, ?_, ?_⟩ <;> simp [initialFlowSt, FlowSt.snapshots]

theorem mono_push {st : FlowSt} (h : Mono st) (ev : Event) (e2 : TaskEffects)
    (hgrow : st.effects ≤ e2) (hsub : ev.subFx ≤ e2) :
    Mono { st with effects := e2, trace := st.trace ++ [⟨ev, e2⟩] } := by
  obtain ⟨hp, hb, hs⟩ := h
  refine ⟨?_, ?_, ?_⟩
  · simp only [FlowSt.snapshots, List.map_append, List.map_cons, List.map_nil]
    rw [List.pairwise_append]
    refine ⟨hp, List.pairwise_singleton _ _, ?_⟩
    intro a ha b hbmem
    simp only [List.mem_cons, List.not_mem_nil, or_false] at hbmem
    subst hbmem
    exact TaskEffects.le_trans (hb a ha) hgrow
  · intro e he
    simp only [FlowSt.snapshots, List.map_append, List.map_cons, List.map_nil,
      List.mem_append, List.mem_cons, List.not_mem_nil, or_false] at he
    rcases he with he | he
    · exact TaskEffects.le_trans (hb e he) hgrow
    · subst he; exact TaskEffects.le_refl _
  · intro t ht
    simp only [List.mem_append, List.mem_cons, List.not_mem_nil, or_false] at ht
    rcases ht with ht | ht
    · exact TaskEffects.le_trans (hs t ht) hgrow
    · subst ht; exact hsub

theorem mono_grow {st : FlowSt} (h : Mono st) (e2 : TaskEffects)
    (hgrow : st.effects ≤ e2) : Mono { st with effects := e2 } := by
  obtain ⟨hp, hb, hs⟩ := h
  refine ⟨hp, ?_, ?_⟩
  · intro e he; exact TaskEffects.le_trans (hb e he) hgrow
  · intro t ht; exact TaskEffects.le_trans (hs t ht) hgrow

theorem preserves_pure {α : Type} (a : α) : Preserves (Flow.pure a) := fun _ h => h

theorem preserves_pure_bi {α : Type} (a : α) : Preserves (Pure.pure (f := FlowM) a) :=
  fun _ h => h

theorem preserves_exit {α : Type} (e : FlowExit) : Preserves (Flow.exit (α := α) e) := fun _ h => h

theorem preserves_record (ev : Event) (hsub : ev.subFx = TaskEffects.none) :
    Preserves (Flow.record ev) := by
  intro st h
  exact mono_push h ev st.effects (TaskEffects.le_refl _) (hsub ▸ TaskEffects.none_le _)

theorem preserves_orFx (d : TaskEffects) : Preserves (Flow.orFx d) := by
  intro st h
  exact mono_grow h _ (TaskEffects.le_union_left _ _)

theorem preserves_setPostStatus (m : Msg) : Preserves (Flow.setPostStatus m) := by
  intro st h
  obtain ⟨hp, hb, hs⟩ := h
  exact ⟨hp, hb, hs⟩

theorem preserves_setJumpTo (l : NavLoc) : Preserves (Flow.setJumpTo l) := by
  intro st h
  obtain ⟨hp, hb, hs⟩ := h
  exact ⟨hp, hb, hs⟩

theorem preserves_bind {α β : Type} {m : FlowM α} {k : α → FlowM β}
    (h1 : Preserves m) (h2 : ∀ a, Preserves (k a)) : Preserves (m >>= k) := by
  intro st h
  have hm := h1 st h
  show Mono (Flow.bind m k st).stOf
  unfold Flow.bind
  cases hms : m st with
  | ok a st1 =>
    have : Mono st1 := by rw [hms] at hm; exact hm
    exact h2 a st1 this
  | exit e st1 =>
    rw [hms] at hm
    exact hm

theorem preserves_ite {α : Type} {c : Prop} [Decidable c] {m m2 : FlowM α}
    (h1 : Preserves m) (h2 : Preserves m2) : Preserves (if c then m else m2) := by
  by_cases hc : c
  · simpa [hc] using h1
  · simpa [hc] using h2

theorem preserves_flowSubtask (name : String) (sub : FlowM Unit) :
    Preserves (Flow.flowSubtask name sub) := by
  intro st h
  show Mono (Flow.flowSubtask name sub st).stOf
  unfold Flow.flowSubtask
  have hpush := mono_push h (.subtask name (sub initialFlowSt).stOf.effects)
    (st.effects.union (sub initialFlowSt).stOf.effects)
    (TaskEffects.le_union_left _ _)
    (by simpa [Event.subFx] using TaskEffects.le_union_right st.effects (sub initialFlowSt).stOf.effects)
  cases hms : sub initialFlowSt with
  | ok a st1 => simp only [hms] at hpush ⊢; exact hpush
  | exit e st1 => simp only [hms] at hpush ⊢; exact hpush

theorem preserves_flowConfirm (prompt : Msg) (ans : ConfirmAnswer) :
    Preserves (Flow.flowConfirm prompt ans) := by
  unfold Flow.flowConfirm
  exact preserves_bind (preserves_record _ rfl)
    (fun _ => preserves_ite (preserves_pure _) (preserves_exit _))

theorem preserves_flowDialog {α : Type} (kind : DialogKind) (ans : Option α) :
    Preserves (Flow.flowDialog kind ans) := by
  unfold Flow.flowDialog
  refine preserves_bind (preserves_record _ rfl) (fun _ => ?_)
  cases ans with
  | none => exact preserves_exit _
  | some a => exact preserves_pure _

theorem preserves_flowCallGit (args : List String) (autoFail : Bool) (res : GitOutcome) :
    Preserves (Flow.flowCallGit args autoFail res) := by
  unfold Flow.flowCallGit
  exact preserves_bind (preserves_record _ rfl)
    (fun _ => preserves_ite (preserves_exit _) (preserves_pure _))

theorem preserves_enterWorker : Preserves Flow.flowEnterWorkerThread :=
  preserves_record _ rfl

theorem preserves_enterUi : Preserves Flow.flowEnterUiThread :=
  preserves_record _ rfl

theorem preserves_checkPrereqs (req : TaskPrereqs) (repo : RepoState) :
    Preserves (Flow.checkPrereqs req repo) := by
  unfold Flow.checkPrereqs
  exact preserves_ite (preserves_pure _) (preserves_exit _)

theorem preserves_backupStash (repo : RepoState) (stashCommitId : Oid) (trashFile : Option String) :
    Preserves (backupStash repo stashCommitId trashFile) := by
  unfold backupStash
  cases trashFile with
  | none => exact preserves_pure _
  | some f => exact preserves_record _ rfl

theorem preserves_forM {α : Type} (xs : List α) (f : α → FlowM PUnit)
    (h : ∀ a, Preserves (f a)) : Preserves (xs.forM f) := by
  induction xs with
  | nil => intro st hm; exact hm
  | cons a as ih =>
    show Preserves (f a >>= fun _ => as.forM f)
    exact preserves_bind (h a) (fun _ => ih)

theorem newStash_preserves (repo : RepoState) (paths : List String)
    (dlgRes : Option StashDialogResult) : Preserves (NewStash.flow repo paths dlgRes) := by
  simp only [NewStash.flow]
  refine preserves_ite (preserves_exit _) ?_
  refine preserves_ite (preserves_exit _) ?_
  refine preserves_bind (preserves_flowDialog _ _) (fun d => ?_)
  refine preserves_bind preserves_enterWorker (fun _ => ?_)
  refine preserves_bind (preserves_orFx _) (fun _ => ?_)
  refine preserves_bind (preserves_record _ rfl) (fun _ => ?_)
  refine preserves_bind (preserves_ite
    (preserves_bind (preserves_orFx _) (fun _ => preserves_record _ rfl))
    (preserves_pure _)) (fun _ => ?_)
  exact preserves_setPostStatus _

theorem applyStash_preserves (repo : RepoState) (tb : Toolbox) (stashCommitId : Oid)
    (tickDelete silent : Bool) (inp : ApplyStashInputs) :
    Preserves (ApplyStash.flow repo tb stashCommitId tickDelete silent inp) := by
  simp only [ApplyStash.flow]
  refine preserves_bind (preserves_ite (preserves_pure _) (preserves_flowDialog _ _))
    (fun deleteAfterApply => ?_)
  refine preserves_bind (preserves_setJumpTo _) (fun _ => ?_)
  refine preserves_bind (preserves_orFx _) (fun _ => ?_)
  refine preserves_bind (preserves_ite
    (preserves_bind (preserves_orFx _) (fun _ => preserves_backupStash _ _ _))
    (preserves_pure _)) (fun _ => ?_)
  refine preserves_bind (preserves_flowCallGit _ _ _) (fun driver => ?_)
  refine preserves_bind preserves_enterWorker (fun _ => ?_)
  refine preserves_bind (preserves_record _ rfl) (fun _ => ?_)
  refine preserves_bind preserves_enterUi (fun _ => ?_)
  refine preserves_ite (preserves_ite (preserves_setPostStatus _) (preserves_setPostStatus _)) ?_
  refine preserves_ite (preserves_bind (preserves_setPostStatus _) (fun _ => preserves_record _ rfl)) ?_
  exact preserves_bind (preserves_setPostStatus _) (fun _ => preserves_exit _)

theorem dropStash_preserves (repo : RepoState) (tb : Toolbox) (stashCommitId : Oid)
    (confirmAns : ConfirmAnswer) (trashFile : Option String) (git : GitOutcome) :
    Preserves (DropStash.flow repo tb stashCommitId confirmAns trashFile git) := by
  simp only [DropStash.flow]
  refine preserves_bind (preserves_flowConfirm _ _) (fun _ => ?_)
  refine preserves_bind (preserves_backupStash _ _ _) (fun _ => ?_)
  refine preserves_bind (preserves_orFx _) (fun _ => ?_)
  refine preserves_bind (preserves_flowCallGit _ _ _) (fun _ => ?_)
  exact preserves_setPostStatus _

theorem switchBranch_preserves (repo : RepoState) (tb : Toolbox) (newBranch : String)
    (askForConfirmation recurseSubmodules refreshUnderDetachedWarning : Bool)
    (inp : SwitchBranchInputs) :
    Preserves (SwitchBranch.flow repo tb newBranch askForConfirmation recurseSubmodules
      refreshUnderDetachedWarning inp) := by
  simp only [SwitchBranch.flow]
  refine preserves_ite (preserves_exit _) ?_
  cases repo.findLocalBranch newBranch with
  | none => exact preserves_exit _
  | some branchObj =>
    refine preserves_ite (preserves_exit _) ?_
    refine preserves_bind (preserves_ite
      (preserves_bind (preserves_flowConfirm _ _) (fun a => preserves_pure _))
      (preserves_pure _)) (fun recurse => ?_)
    refine preserves_bind (preserves_ite
      (preserves_bind (preserves_ite (preserves_flowSubtask _ _) (preserves_pure _))
        (fun _ => preserves_bind (preserves_flowConfirm _ _) (fun _ => preserves_pure _)))
      (preserves_pure _)) (fun _ => ?_)
    refine preserves_bind (preserves_orFx _) (fun _ => ?_)
    refine preserves_bind (preserves_flowCallGit _ _ _) (fun _ => ?_)
    exact preserves_setPostStatus _

theorem renameBranch_preserves (repo : RepoState) (oldBranchName : String)
    (dlgText : Option String) : Preserves (RenameBranch.flow repo oldBranchName dlgText) := by
  simp only [RenameBranch.flow]
  refine preserves_ite (preserves_exit _) ?_
  refine preserves_bind (preserves_flowDialog _ _) (fun newName => ?_)
  refine preserves_ite (preserves_exit _) ?_
  refine preserves_bind preserves_enterWorker (fun _ => ?_)
  refine preserves_bind (preserves_orFx _) (fun _ => ?_)
  refine preserves_bind (preserves_record _ rfl) (fun _ => ?_)
  exact preserves_setPostStatus _

theorem renameBranchFolder_preserves (repo : RepoState) (oldFolderRefName : String)
    (dlgText : Option String) : Preserves (RenameBranchFolder.flow repo oldFolderRefName dlgText) := by
  simp only [RenameBranchFolder.flow]
  refine preserves_ite (preserves_exit _) ?_
  refine preserves_ite (preserves_exit _) ?_
  refine preserves_bind (preserves_flowDialog _ _) (fun newFolderName => ?_)
  refine preserves_ite (preserves_exit _) ?_
  refine preserves_bind preserves_enterWorker (fun _ => ?_)
  refine preserves_bind (preserves_orFx _) (fun _ => ?_)
  refine preserves_bind (preserves_forM _ _ (fun b => preserves_record _ rfl)) (fun _ => ?_)
  exact preserves_setPostStatus _

theorem deleteBranch_preserves (repo : RepoState) (tb : Toolbox) (localBranchName : String)
    (confirmAns : ConfirmAnswer) : Preserves (DeleteBranch.flow repo tb localBranchName confirmAns) := by
  simp only [DeleteBranch.flow]
  refine preserves_ite (preserves_exit _) ?_
  refine preserves_ite (preserves_exit _) ?_
  refine preserves_bind (preserves_flowConfirm _ _) (fun _ => ?_)
  refine preserves_bind preserves_enterWorker (fun _ => ?_)
  cases repo.findLocalBranch localBranchName with
  | none => exact preserves_exit _
  | some b =>
    refine preserves_bind (preserves_orFx _) (fun _ => ?_)
    refine preserves_bind (preserves_record _ rfl) (fun _ => ?_)
    exact preserves_setPostStatus _

theorem deleteBranchFolder_preserves (repo : RepoState) (folderRefName : String)
    (confirmAns : ConfirmAnswer) : Preserves (DeleteBranchFolder.flow repo folderRefName confirmAns) := by
  simp only [DeleteBranchFolder.flow]
  refine preserves_ite (preserves_exit _) ?_
  refine preserves_ite (preserves_exit _) ?_
  refine preserves_ite (preserves_exit _) ?_
  refine preserves_bind (preserves_flowConfirm _ _) (fun _ => ?_)
  refine preserves_bind preserves_enterWorker (fun _ => ?_)
  refine preserves_bind (preserves_orFx _) (fun _ => ?_)
  refine preserves_bind (preserves_forM _ _ (fun b => preserves_record _ rfl)) (fun _ => ?_)
  exact preserves_setPostStatus _

theorem newBranchFromCommit_preserves (repo : RepoState) (tb : Toolbox) (tip : Oid)
    (localName suggestUpstream : String) (checkUpstream : Bool)
    (dlgRes : Option NewBranchDialogResult) (subInputs : SwitchBranchInputs) :
    Preserves (NewBranchFromCommit.flow repo tb tip localName suggestUpstream checkUpstream
      dlgRes subInputs) := by
  simp only [NewBranchFromCommit.flow]
  cases collectNewBranchInfo repo tb (repo.refsPointingAt tip)
      (if (!repo.headIsUnborn && !repo.headIsDetached && (repo.headTarget == tip))
          && (localName == "") then repo.headShorthand else localName) [] with
  | error missing => exact preserves_exit _
  | ok p =>
    obtain ⟨localName1, upstreams0⟩ := p
    refine preserves_bind (preserves_flowDialog _ _) (fun d => ?_)
    refine preserves_bind preserves_enterWorker (fun _ => ?_)
    refine preserves_bind (preserves_record _ rfl) (fun _ => ?_)
    refine preserves_bind (preserves_orFx _) (fun _ => ?_)
    refine preserves_bind (preserves_setPostStatus _) (fun _ => ?_)
    refine preserves_bind (preserves_ite (preserves_record _ rfl) (preserves_pure _)) (fun _ => ?_)
    refine preserves_ite ?_ (preserves_pure _)
    refine preserves_bind (preserves_orFx _) (fun _ => ?_)
    refine preserves_bind preserves_enterUi (fun _ => ?_)
    exact preserves_flowSubtask _ _

theorem newBranchFromRef_preserves (repo : RepoState) (tb : Toolbox) (refname : String)
    (dlgRes : Option NewBranchDialogResult) (subInputs : SwitchBranchInputs) :
    Preserves (NewBranchFromRef.flow repo tb refname dlgRes subInputs) := by
  simp only [NewBranchFromRef.flow]
  refine preserves_ite ?_ (preserves_ite ?_ (preserves_exit _))
  · cases repo.findLocalBranch (refSplit refname).2 with
    | none => exact preserves_exit _
    | some branch => exact preserves_flowSubtask _ _
  · cases repo.findRemoteBranch (refSplit refname).2 with
    | none => exact preserves_exit _
    | some branch => exact preserves_flowSubtask _ _

theorem newBranchFromHead_preserves (repo : RepoState) (tb : Toolbox)
    (dlgRes : Option NewBranchDialogResult) (subInputs : SwitchBranchInputs) :
    Preserves (NewBranchFromHead.flow repo tb dlgRes subInputs) := by
  simp only [NewBranchFromHead.flow]
  exact preserves_ite (preserves_flowSubtask _ _) (preserves_flowSubtask _ _)

theorem editUpstreamBranch_preserves (repo : RepoState) (localBranchName remoteBranchName : String) :
    Preserves (EditUpstreamBranch.flow repo localBranchName remoteBranchName) := by
  simp only [EditUpstreamBranch.flow]
  cases repo.findLocalBranch localBranchName with
  | none => exact preserves_exit _
  | some b =>
    refine preserves_ite (preserves_exit _) ?_
    refine preserves_bind preserves_enterWorker (fun _ => ?_)
    refine preserves_bind (preserves_orFx _) (fun _ => ?_)
    refine preserves_bind (preserves_record _ rfl) (fun _ => ?_)
    refine preserves_bind (preserves_record _ rfl) (fun _ => ?_)
    exact preserves_ite (preserves_setPostStatus _) (preserves_setPostStatus _)

theorem resetHead_preserves (repo : RepoState) (tb : Toolbox) (onto : Oid)
    (dlgRes : Option ResetHeadResult) (git : GitOutcome) :
    Preserves (ResetHead.flow repo tb onto dlgRes git) := by
  simp only [ResetHead.flow]
  refine preserves_bind (preserves_flowDialog _ _) (fun d => ?_)
  refine preserves_bind (preserves_orFx _) (fun _ => ?_)
  refine preserves_ite (preserves_exit _) ?_
  refine preserves_bind (preserves_flowCallGit _ _ _) (fun _ => ?_)
  exact preserves_setPostStatus _

theorem fastForwardWithGit_preserves (repo : RepoState) (branch : BranchInfo) (git : GitOutcome) :
    Preserves (FastForwardBranch.withGit repo branch git) := by
  simp only [FastForwardBranch.withGit]
  refine preserves_bind preserves_enterWorker (fun _ => ?_)
  cases branch.upstream with
  | none => exact preserves_exit _
  | some upstream =>
    refine preserves_bind (preserves_record _ rfl) (fun _ => ?_)
    refine preserves_ite (preserves_pure _) ?_
    refine preserves_ite ?_ (preserves_ite (preserves_exit _) (preserves_exit _))
    refine preserves_bind (preserves_orFx _) (fun _ => ?_)
    refine preserves_bind (preserves_ite
      (preserves_bind (preserves_orFx _) (fun _ => preserves_pure _))
      (preserves_pure _)) (fun args => ?_)
    refine preserves_bind preserves_enterUi (fun _ => ?_)
    refine preserves_bind (preserves_flowCallGit _ _ _) (fun driver => ?_)
    exact preserves_ite (preserves_exit _) (preserves_pure _)

theorem mergeConfirmFastForward_preserves (tb : Toolbox) (myShorthand theirShorthand : String)
    (target : Oid) (autoFastForwardOptionName : String) (ans : ConfirmAnswer) :
    Preserves (MergeBranch.confirmFastForward tb myShorthand theirShorthand target
      autoFastForwardOptionName ans) := by
  simp only [MergeBranch.confirmFastForward]
  exact preserves_bind (preserves_flowConfirm _ _) (fun r => preserves_pure _)

theorem mergeWithGit_preserves (wantMergeCommit : Bool) (theirShorthand : String)
    (git : GitOutcome) : Preserves (MergeBranch.withGit wantMergeCommit theirShorthand git) := by
  simp only [MergeBranch.withGit]
  refine preserves_bind (preserves_orFx _) (fun _ => ?_)
  refine preserves_bind (preserves_flowCallGit _ _ _) (fun driver => ?_)
  exact preserves_ite (preserves_record _ rfl) (preserves_pure _)

theorem recallCommit_preserves (repo : RepoState) (tb : Toolbox) (dlgText : Option String) :
    Preserves (RecallCommit.flow repo tb dlgText) := by
  simp only [RecallCommit.flow]
  refine preserves_bind (preserves_flowDialog _ _) (fun needle => ?_)
  refine preserves_bind preserves_enterWorker (fun _ => ?_)
  refine preserves_bind (preserves_orFx _) (fun _ => ?_)
  refine preserves_bind (preserves_record _ rfl) (fun _ => ?_)
  cases repo.resolveCommit needle with
  | none => exact preserves_exit _
  | some commitId =>
    refine preserves_bind (preserves_record _ rfl) (fun _ => ?_)
    exact preserves_setJumpTo _

theorem fastForwardBranch_preserves (repo : RepoState) (localBranchName : String)
    (git : GitOutcome) (upToDateConfirm : ConfirmAnswer) :
    Preserves (FastForwardBranch.flow repo localBranchName git upToDateConfirm) := by
  simp only [FastForwardBranch.flow]
  refine preserves_bind (preserves_ite
    (preserves_bind (preserves_checkPrereqs _ _) (fun _ => preserves_pure _))
    (preserves_pure _)) (fun name => ?_)
  split
  · exact preserves_exit _
  · split
    · exact preserves_exit _
    · refine preserves_bind (fastForwardWithGit_preserves _ _ _) (fun upToDate => ?_)
      refine preserves_bind (preserves_setJumpTo _) (fun _ => ?_)
      refine preserves_bind preserves_enterUi (fun _ => ?_)
      refine preserves_ite ?_ (preserves_pure _)
      refine preserves_bind (preserves_setPostStatus _) (fun _ => ?_)
      exact preserves_bind (preserves_flowConfirm _ _) (fun _ => preserves_pure _)

set_option maxHeartbeats 1000000 in
theorem mergeBranch_preserves (repo : RepoState) (tb : Toolbox) (them : String)
    (silentFastForward : Bool) (autoFastForwardOptionName : String) (inp : MergeBranchInputs) :
    Preserves (MergeBranch.flow repo tb them silentFastForward autoFastForwardOptionName inp) := by
  delta MergeBranch.flow
  refine preserves_ite (preserves_exit _) ?_
  split
  · exact preserves_exit _
  · refine preserves_bind preserves_enterWorker (fun _ => ?_)
    refine preserves_bind (preserves_record _ rfl) (fun _ => ?_)
    refine preserves_bind (preserves_record _ rfl) (fun _ => ?_)
    refine preserves_bind preserves_enterUi (fun _ => ?_)
    refine preserves_ite (preserves_exit _) ?_
    refine preserves_ite (preserves_exit _) ?_
    refine preserves_ite (preserves_exit _) ?_
    refine preserves_ite (preserves_exit _) ?_
    refine preserves_bind (preserves_ite
      (preserves_ite
        (preserves_ite
          (preserves_bind (preserves_flowConfirm _ _)
            (fun a => preserves_ite (preserves_pure _) (preserves_pure _)))
          (preserves_pure _))
        (preserves_bind (mergeConfirmFastForward_preserves _ _ _ _ _ _) (fun w => preserves_pure _)))
      (preserves_ite
        (preserves_bind (preserves_flowConfirm _ _) (fun _ => preserves_pure _))
        (preserves_exit _))) (fun ws => ?_)
    split
    · exact preserves_pure _
    · refine preserves_bind (preserves_ite
        (preserves_bind (preserves_record _ rfl) (fun _ => preserves_record _ rfl))
        (preserves_pure _)) (fun _ => ?_)
      refine preserves_bind (mergeWithGit_preserves _ _ _) (fun _ => ?_)
      refine preserves_bind (preserves_ite
        (preserves_bind (preserves_setJumpTo _) (fun _ => preserves_setPostStatus _))
        (preserves_setPostStatus _)) (fun _ => ?_)
      exact preserves_ite (applyStash_preserves _ _ _ _ _ _) (preserves_pure _)

theorem foldl_union_le {c : TaskEffects} :
    ∀ (l : List TaskEffects) (a : TaskEffects), a ≤ c → (∀ e ∈ l, e ≤ c) →
      l.foldl TaskEffects.union a ≤ c := by
  intro l
  induction l with
  | nil => intro a ha _; exact ha
  | cons x xs ih =>
    intro a ha h
    simp only [List.foldl_cons]
    exact ih _ (TaskEffects.union_le ha (h x (by simp))) (fun e he => h e (by simp [he]))

theorem unionAll_le {l : List TaskEffects} {c : TaskEffects} (h : ∀ e ∈ l, e ≤ c) :
    unionAll l ≤ c :=
  foldl_union_le l _ (TaskEffects.none_le c) h

theorem monoRun_of_preserves {m : FlowM Unit} (h : Preserves m)
    (req : TaskPrereqs) (repo : RepoState) : MonoRun (runTask req repo m) := by
  have hM := h initialFlowSt mono_initial
  unfold runTask
  by_cases hc : unmetPrereqs req repo = TaskPrereqs.none
  · simp only [hc, if_true, reduceIte]
    unfold runFlow
    cases hm : m initialFlowSt with
    | ok a st =>
      rw [hm] at hM
      obtain ⟨hp, hb, hs⟩ := hM
      exact ⟨hp, hb, unionAll_le (by
        intro e he
        simp only [subtaskEffects, List.mem_map] at he
        obtain ⟨t, ht, rfl⟩ := he
        exact hs t ht)⟩
    | exit e st =>
      rw [hm] at hM
      obtain ⟨hp, hb, hs⟩ := hM
      cases e with
      | abortSignal sig =>
        exact ⟨hp, hb, unionAll_le (by
          intro x hx
          simp only [subtaskEffects, List.mem_map] at hx
          obtain ⟨t, ht, rfl⟩ := hx
          exact hs t ht)⟩
      | processFailure a b c =>
        exact ⟨hp, hb, unionAll_le (by
          intro x hx
          simp only [subtaskEffects, List.mem_map] at hx
          obtain ⟨t, ht, rfl⟩ := hx
          exact hs t ht)⟩
      | divergentBranches a b =>
        exact ⟨hp, hb, unionAll_le (by
          intro x hx
          simp only [subtaskEffects, List.mem_map] at hx
          obtain ⟨t, ht, rfl⟩ := hx
          exact hs t ht)⟩
      | notImplementedCase a =>
        exact ⟨hp, hb, unionAll_le (by
          intro x hx
          simp only [subtaskEffects, List.mem_map] at hx
          obtain ⟨t, ht, rfl⟩ := hx
          exact hs t ht)⟩
      | assertionFailed a =>
        exact ⟨hp, hb, unionAll_le (by
          intro x hx
          simp only [subtaskEffects, List.mem_map] at hx
          obtain ⟨t, ht, rfl⟩ := hx
          exact hs t ht)⟩
      | lookupFailure a =>
        exact ⟨hp, hb, unionAll_le (by
          intro x hx
          simp only [subtaskEffects, List.mem_map] at hx
          obtain ⟨t, ht, rfl⟩ := hx
          exact hs t ht)⟩
      | prereqFailure a =>
        exact ⟨hp, hb, unionAll_le (by
          intro x hx
          simp only [subtaskEffects, List.mem_map] at hx
          obtain ⟨t, ht, rfl⟩ := hx
          exact hs t ht)⟩
  · simp only [hc, if_false, reduceIte]
    refine ⟨?_, ?_, ?_⟩ <;>
      simp [RunResult.snapshots, subtaskEffects, unionAll, TaskEffects.le_refl]

/-- C1: across every operation of the catalogue, the EffectSet accumulator
only grows: the EffectSet observed at each step is a subset of the EffectSet
observed at every later step and of the final EffectSet, and the final
EffectSet of a parent operation contains the union of the EffectSets of
every subtask it invoked.  This holds for every argument list and every
environment answer. -/
theorem effects_monotone_catalogue :
    (∀ repo tb newBranch ask rec refr inp,
      MonoRun (SwitchBranch.run repo tb newBranch ask rec refr inp))
    ∧ (∀ repo old dlg, MonoRun (RenameBranch.run repo old dlg))
    ∧ (∀ repo oldRef dlg, MonoRun (RenameBranchFolder.run repo oldRef dlg))
    ∧ (∀ repo tb name ans, MonoRun (DeleteBranch.run repo tb name ans))
    ∧ (∀ repo ref ans, MonoRun (DeleteBranchFolder.run repo ref ans))
    ∧ (∀ repo tb tip ln su cu dlg subI,
      MonoRun (NewBranchFromCommit.run repo tb tip ln su cu dlg subI))
    ∧ (∀ repo tb dlg subI, MonoRun (NewBranchFromHead.run repo tb dlg subI))
    ∧ (∀ repo tb ref dlg subI, MonoRun (NewBranchFromRef.run repo tb ref dlg subI))
    ∧ (∀ repo l r, MonoRun (EditUpstreamBranch.run repo l r))
    ∧ (∀ repo tb onto dlg git, MonoRun (ResetHead.run repo tb onto dlg git))
    ∧ (∀ repo name git ans, MonoRun (FastForwardBranch.run repo name git ans))
    ∧ (∀ repo tb them sff aff inp, MonoRun (MergeBranch.run repo tb them sff aff inp))
    ∧ (∀ repo tb dlg, MonoRun (RecallCommit.run repo tb dlg))
    ∧ (∀ repo paths dlg, MonoRun (NewStash.run repo paths dlg))
    ∧ (∀ repo tb sid td si inp, MonoRun (ApplyStash.run repo tb sid td si inp))
    ∧ (∀ repo tb sid ans tf git, MonoRun (DropStash.run repo tb sid ans tf git)) := by
  refine ⟨?_, ?_, ?_, ?_, ?_, ?_, ?_, ?_, ?_, ?_, ?_, ?_, ?_, ?_, ?_, ?_⟩
  · intro repo tb newBranch ask rec refr inp
    exact monoRun_of_preserves (switchBranch_preserves repo tb newBranch ask rec refr inp) _ _
  · intro repo old dlg
    exact monoRun_of_preserves (renameBranch_preserves repo old dlg) _ _
  · intro repo oldRef dlg
    exact monoRun_of_preserves (renameBranchFolder_preserves repo oldRef dlg) _ _
  · intro repo tb name ans
    exact monoRun_of_preserves (deleteBranch_preserves repo tb name ans) _ _
  · intro repo ref ans
    exact monoRun_of_preserves (deleteBranchFolder_preserves repo ref ans) _ _
  · intro repo tb tip ln su cu dlg subI
    exact monoRun_of_preserves (newBranchFromCommit_preserves repo tb tip ln su cu dlg subI) _ _
  · intro repo tb dlg subI
    exact monoRun_of_preserves (newBranchFromHead_preserves repo tb dlg subI) _ _
  · intro repo tb ref dlg subI
    exact monoRun_of_preserves (newBranchFromRef_preserves repo tb ref dlg subI) _ _
  · intro repo l r
    exact monoRun_of_preserves (editUpstreamBranch_preserves repo l r) _ _
  · intro repo tb onto dlg git
    exact monoRun_of_preserves (resetHead_preserves repo tb onto dlg git) _ _
  · intro repo name git ans
    exact monoRun_of_preserves (fastForwardBranch_preserves repo name git ans) _ _
  · intro repo tb them sff aff inp
    exact monoRun_of_preserves (mergeBranch_preserves repo tb them sff aff inp) _ _
  · intro repo tb dlg
    exact monoRun_of_preserves (recallCommit_preserves repo tb dlg) _ _
  · intro repo paths dlg
    exact monoRun_of_preserves (newStash_preserves repo paths dlg) _ _
  · intro repo tb sid td si inp
    exact monoRun_of_preserves (applyStash_preserves repo tb sid td si inp) _ _
  · intro repo tb sid ans tf git
    exact monoRun_of_preserves (dropStash_preserves repo tb sid ans tf git) _ _

@[simp] theorem FlowM.bind_apply {a b : Type} (m : FlowM a) (k : a → FlowM b) (st : FlowSt) :
    (m >>= k) st = match m st with
      | .ok x st1 => k x st1
      | .exit e st1 => .exit e st1 := rfl

@[simp] theorem FlowM.monad_pure_apply {a : Type} (x : a) (st : FlowSt) :
    (Pure.pure (f := FlowM) x) st = FlowOut.ok x st := rfl

/-- C4: invoking SwitchBranch on a branch that is already checked out (with
its NoConflicts prereq satisfied) aborts with an informational-severity
message, invokes no external process (the trace is empty), and ends with an
empty EffectSet. -/
theorem switchBranch_already_checked_out (repo : RepoState) (tb : Toolbox) (name : String)
    (ask rec refr : Bool) (inp : SwitchBranchInputs) (b : BranchInfo)
    (hconf : repo.anyConflicts = false)
    (hpre : strStartsWith name "refs/heads/" = false)
    (hfind : repo.findLocalBranch name = some b)
    (hco : b.isCheckedOut = true) :
    (SwitchBranch.run repo tb name ask rec refr inp).outcome
      = Outcome.aborted ⟨some (.alreadyCheckedOut name), some "information", []⟩
    ∧ (SwitchBranch.run repo tb name ask rec refr inp).effects = TaskEffects.none
    ∧ (SwitchBranch.run repo tb name ask rec refr inp).trace = [] := by
  simp [SwitchBranch.run, runTask, unmetPrereqs, SwitchBranch.prereqs, runFlow,
    SwitchBranch.flow, hconf, hpre, hfind, hco, Flow.exit, initialFlowSt,
    TaskPrereqs.none, TaskEffects.none]

theorem switchBranch_already_checked_out_witness :
    (SwitchBranch.run repoC4 {} "main" true false false {}).outcome
      = Outcome.aborted ⟨some (.alreadyCheckedOut "main"), some "information", []⟩
    ∧ (SwitchBranch.run repoC4 {} "main" true false false {}).effects = TaskEffects.none
    ∧ (SwitchBranch.run repoC4 {} "main" true false false {}).trace = [] :=
  switchBranch_already_checked_out repoC4 {} "main" true false false {} branchC4
    rfl rfl (by decide) rfl

/-- C5: RenameBranch with the dialog answered by the unchanged name ends in
a messageless AbortSignal (no error, no user-visible message), leaves the
EffectSet empty, and never performs the backend rename. -/
theorem renameBranch_same_name_noop (repo : RepoState) (oldName : String)
    (hpre : strStartsWith oldName "refs/heads/" = false) :
    (RenameBranch.run repo oldName (some oldName)).outcome
      = Outcome.aborted ⟨Option.none, Option.none, []⟩
    ∧ (RenameBranch.run repo oldName (some oldName)).effects = TaskEffects.none
    ∧ (∀ t ∈ (RenameBranch.run repo oldName (some oldName)).trace,
        ∀ a b, t.ev ≠ Event.renameLocalBranch a b) := by
  simp [RenameBranch.run, runTask, unmetPrereqs, TaskPrereqs.none, runFlow,
    RenameBranch.flow, Flow.flowDialog, Flow.record, Flow.pure, Flow.exit,
    initialFlowSt, TaskEffects.none, hpre]

theorem renameBranch_same_name_noop_witness :
    (RenameBranch.run {} "dev" (some "dev")).outcome
      = Outcome.aborted ⟨Option.none, Option.none, []⟩
    ∧ (RenameBranch.run {} "dev" (some "dev")).effects = TaskEffects.none
    ∧ (∀ t ∈ (RenameBranch.run {} "dev" (some "dev")).trace,
        ∀ a b, t.ev ≠ Event.renameLocalBranch a b) :=
  renameBranch_same_name_noop {} "dev" rfl

/-- C6: DeleteBranch on an existing branch other than the checked-out one
shows the confirmation prompt as its first step; on acceptance it deletes
the branch through the backend, ends with EffectSet exactly Refs, and its
status message names the branch and the short hash of the commit at its
tip; on the currently checked-out branch it aborts with an empty trace, so
before any confirmation. -/
theorem deleteBranch_spec (repo : RepoState) (tb : Toolbox) (name : String)
    (ans : ConfirmAnswer) (b : BranchInfo)
    (hpre : strStartsWith name "refs/heads/" = false)
    (hnotcur : (name == repo.headBranchShorthand) = false)
    (hfind : repo.findLocalBranch name = some b)
    (hacc : ans.accepted = true) :
    (DeleteBranch.run repo tb name ans).outcome = Outcome.completed
    ∧ (DeleteBranch.run repo tb name ans).effects = { refs := true }
    ∧ (DeleteBranch.run repo tb name ans).postStatus
        = some (.branchDeleted name (tb.shortHash b.target))
    ∧ (DeleteBranch.run repo tb name ans).trace
        = [⟨.confirm (.askDeleteBranch name), {}⟩,
           ⟨.enterWorkerThread, {}⟩,
           ⟨.deleteLocalBranch name, { refs := true }⟩]
    ∧ (∀ name2, (name2 == repo.headBranchShorthand) = true →
        strStartsWith name2 "refs/heads/" = false →
        (DeleteBranch.run repo tb name2 ans).outcome
          = Outcome.aborted ⟨some (.cannotDeleteCurrentBranch name2), Option.none, []⟩
        ∧ (DeleteBranch.run repo tb name2 ans).trace = []) := by
  refine ⟨?_, ?_, ?_, ?_, ?_⟩
  · simp [DeleteBranch.run, runTask, unmetPrereqs, TaskPrereqs.none, runFlow,
      DeleteBranch.flow, Flow.flowConfirm, Flow.record, Flow.pure, Flow.exit,
      Flow.flowEnterWorkerThread, Flow.orFx, Flow.setPostStatus, initialFlowSt,
      hpre, hnotcur, hfind, hacc, TaskEffects.union]
  · simp [DeleteBranch.run, runTask, unmetPrereqs, TaskPrereqs.none, runFlow,
      DeleteBranch.flow, Flow.flowConfirm, Flow.record, Flow.pure, Flow.exit,
      Flow.flowEnterWorkerThread, Flow.orFx, Flow.setPostStatus, initialFlowSt,
      hpre, hnotcur, hfind, hacc, TaskEffects.union]
  · simp [DeleteBranch.run, runTask, unmetPrereqs, TaskPrereqs.none, runFlow,
      DeleteBranch.flow, Flow.flowConfirm, Flow.record, Flow.pure, Flow.exit,
      Flow.flowEnterWorkerThread, Flow.orFx, Flow.setPostStatus, initialFlowSt,
      hpre, hnotcur, hfind, hacc, TaskEffects.union]
  · simp [DeleteBranch.run, runTask, unmetPrereqs, TaskPrereqs.none, runFlow,
      DeleteBranch.flow, Flow.flowConfirm, Flow.record, Flow.pure, Flow.exit,
      Flow.flowEnterWorkerThread, Flow.orFx, Flow.setPostStatus, initialFlowSt,
      hpre, hnotcur, hfind, hacc, TaskEffects.union]
  · intro name2 hcur hpre2
    constructor <;>
      simp [DeleteBranch.run, runTask, unmetPrereqs, TaskPrereqs.none, runFlow,
        DeleteBranch.flow, Flow.flowConfirm, Flow.record, Flow.pure, Flow.exit,
        initialFlowSt, hpre2, hcur]

theorem deleteBranch_spec_witness :
    (DeleteBranch.run repoC6 {} "feature" {}).outcome = Outcome.completed
    ∧ (DeleteBranch.run repoC6 {} "feature" {}).effects = { refs := true }
    ∧ (DeleteBranch.run repoC6 {} "feature" {}).postStatus
        = some (.branchDeleted "feature" (Toolbox.shortHash {} "abc1234def0"))
    ∧ (DeleteBranch.run repoC6 {} "feature" {}).trace
        = [⟨.confirm (.askDeleteBranch "feature"), {}⟩,
           ⟨.enterWorkerThread, {}⟩,
           ⟨.deleteLocalBranch "feature", { refs := true }⟩]
    ∧ (∀ name2, (name2 == repoC6.headBranchShorthand) = true →
        strStartsWith name2 "refs/heads/" = false →
        (DeleteBranch.run repoC6 {} name2 {}).outcome
          = Outcome.aborted ⟨some (.cannotDeleteCurrentBranch name2), Option.none, []⟩
        ∧ (DeleteBranch.run repoC6 {} name2 {}).trace = []) :=
  deleteBranch_spec repoC6 {} "feature" {} branchC6 rfl (by decide) (by decide) rfl

/-- C2 amended: with unresolved conflicts, MergeBranch aborts with the
message telling the user to fix the conflicts first, with an empty
EffectSet, with no external process invoked; the read-only merge-analysis
backend call does happen (on the worker thread, before the conflict check),
as the recorded trace shows. -/
theorem mergeBranch_conflicts_abort (repo : RepoState) (tb : Toolbox) (them : String)
    (sff : Bool) (aff : String) (inp : MergeBranchInputs) (target : Oid)
    (hassert : strStartsWith them "refs/" = true)
    (htgt : getBranchTargetFromRefname repo them = some target)
    (hconf : repo.anyConflicts = true) :
    (MergeBranch.run repo tb them sff aff inp).outcome
      = Outcome.aborted ⟨some .mergeConflictsAbort, Option.none, []⟩
    ∧ (MergeBranch.run repo tb them sff aff inp).effects = TaskEffects.none
    ∧ (MergeBranch.run repo tb them sff aff inp).trace
        = [⟨.enterWorkerThread, {}⟩,
           ⟨.refreshIndexCall, {}⟩,
           ⟨.mergeAnalysisCall target Option.none, {}⟩,
           ⟨.enterUiThread, {}⟩]
    ∧ (∀ t ∈ (MergeBranch.run repo tb them sff aff inp).trace,
        ∀ args af, t.ev ≠ Event.callGit args af) := by
  have hrun : MergeBranch.run repo tb them sff aff inp
      = runFlow (MergeBranch.flow repo tb them sff aff inp) := by
    simp [MergeBranch.run, runTask, unmetPrereqs, TaskPrereqs.none]
  rw [hrun]
  have hfl : MergeBranch.flow repo tb them sff aff inp initialFlowSt
      = FlowOut.exit (.abortSignal ⟨some .mergeConflictsAbort, Option.none, []⟩)
          { effects := {}, trace := [⟨.enterWorkerThread, {}⟩, ⟨.refreshIndexCall, {}⟩,
              ⟨.mergeAnalysisCall target Option.none, {}⟩, ⟨.enterUiThread, {}⟩],
            postStatus := Option.none, jumpTo := Option.none } := by
    delta MergeBranch.flow
    simp [hassert, htgt, hconf, Flow.flowEnterWorkerThread, Flow.flowEnterUiThread,
      Flow.record, Flow.exit, Flow.pure, initialFlowSt]
  refine ⟨?_, ?_, ?_, ?_⟩ <;> simp [runFlow, hfl, TaskEffects.none]

/-- C2 counterexample: at this concrete input the flow does abort on the
conflicts, yet the merge-analysis backend call appears in the trace, so the
abort does not happen before repo.merge_analysis is invoked. -/
theorem mergeBranch_conflicts_analysis_called_cex :
    Event.mergeAnalysisCall "t0commit" Option.none
      ∈ ((MergeBranch.run repoC2 {} "refs/heads/dev" false "" {}).trace.map TraceEntry.ev)
    ∧ (MergeBranch.run repoC2 {} "refs/heads/dev" false "" {}).outcome
      = Outcome.aborted ⟨some .mergeConflictsAbort, Option.none, []⟩ := by
  constructor <;> decide

theorem mergeBranch_conflicts_abort_witness :
    (MergeBranch.run repoC2 {} "refs/heads/dev" false "" {}).outcome
      = Outcome.aborted ⟨some .mergeConflictsAbort, Option.none, []⟩
    ∧ (MergeBranch.run repoC2 {} "refs/heads/dev" false "" {}).effects = TaskEffects.none
    ∧ (MergeBranch.run repoC2 {} "refs/heads/dev" false "" {}).trace
        = [⟨.enterWorkerThread, {}⟩,
           ⟨.refreshIndexCall, {}⟩,
           ⟨.mergeAnalysisCall "t0commit" Option.none, {}⟩,
           ⟨.enterUiThread, {}⟩]
    ∧ (∀ t ∈ (MergeBranch.run repoC2 {} "refs/heads/dev" false "" {}).trace,
        ∀ args af, t.ev ≠ Event.callGit args af) :=
  mergeBranch_conflicts_abort repoC2 {} "refs/heads/dev" false "" {} "t0commit"
    rfl (by decide) rfl

/-- C3: the process-fatality flag.  With fail-on-nonzero off, an invocation
returns the outcome as data and never raises; with it on, a non-zero exit
raises ProcessFailure carrying the exit code, captured error text and the
command.  FastForwardBranch turns a non-zero exit of its non-fatal call
into a DivergentBranchesError, and MergeBranch completes normally on a
non-zero exit: domain-level decisions, not hard failures. -/
theorem processFatalityFlag :
    (∀ args res st, Flow.flowCallGit args false res st
        = FlowOut.ok res { st with trace := st.trace ++ [⟨.callGit args false, st.effects⟩] })
    ∧ (∀ args res st, (res.exitCode == 0) = false →
        Flow.flowCallGit args true res st
          = FlowOut.exit (.processFailure res.exitCode res.stderr args)
              { st with trace := st.trace ++ [⟨.callGit args true, st.effects⟩] })
    ∧ (∀ repo branch upstream git st, branch.upstream = some upstream →
        repo.mergeAnalysisAt upstream.target (some branch.fullName)
          = { fastForward := true, normal := true } →
        (git.exitCode == 0) = false →
        ∃ st2, FastForwardBranch.withGit repo branch git st
          = FlowOut.exit (.divergentBranches branch upstream) st2)
    ∧ (∀ wantMergeCommit theirShorthand git st, (git.exitCode == 0) = false →
        ∃ st2, MergeBranch.withGit wantMergeCommit theirShorthand git st = FlowOut.ok () st2) := by
  refine ⟨?_, ?_, ?_, ?_⟩
  · intro args res st
    simp [Flow.flowCallGit, Flow.record, Flow.pure]
  · intro args res st hexit
    simp [Flow.flowCallGit, Flow.record, Flow.pure, Flow.exit, bne, hexit]
  · intro repo branch upstream git st hup hana hexit
    have hne : ¬(git.exitCode = 0) := by simpa using hexit
    cases hco : branch.isCheckedOut <;>
      simp [FastForwardBranch.withGit, Flow.flowEnterWorkerThread, Flow.flowEnterUiThread,
        Flow.record, Flow.pure, Flow.exit, Flow.orFx, Flow.flowCallGit, hup, hana, hco,
        bne, hexit, hne, AnalysisFlags.upToDate]
  · intro w ts git st hexit
    have hne : ¬(git.exitCode = 0) := by simpa using hexit
    cases hw : w <;>
      simp [MergeBranch.withGit, Flow.flowCallGit, Flow.record, Flow.pure, Flow.orFx, bne,
        hexit, hne]

theorem processFatalityFlag_witness :
    (Flow.flowCallGit ["version"] false ⟨1, "boom"⟩ initialFlowSt
      = FlowOut.ok ⟨1, "boom"⟩
          { initialFlowSt with
            trace := initialFlowSt.trace ++ [⟨.callGit ["version"] false, initialFlowSt.effects⟩] })
    ∧ (Flow.flowCallGit ["version"] true ⟨1, "boom"⟩ initialFlowSt
      = FlowOut.exit (.processFailure 1 "boom" ["version"])
          { initialFlowSt with
            trace := initialFlowSt.trace ++ [⟨.callGit ["version"] true, initialFlowSt.effects⟩] })
    ∧ (∃ st2, FastForwardBranch.withGit repoC3 branchC3 ⟨1, "conflicts"⟩ initialFlowSt
        = FlowOut.exit (.divergentBranches branchC3 upstreamC3) st2)
    ∧ (∃ st2, MergeBranch.withGit true "dev" ⟨1, "conflicts"⟩ initialFlowSt
        = FlowOut.ok () st2) :=
  ⟨processFatalityFlag.1 ["version"] ⟨1, "boom"⟩ initialFlowSt,
   processFatalityFlag.2.1 ["version"] ⟨1, "boom"⟩ initialFlowSt (by decide),
   processFatalityFlag.2.2.1 repoC3 branchC3 upstreamC3 ⟨1, "conflicts"⟩ initialFlowSt
     rfl rfl (by decide),
   processFatalityFlag.2.2.2 true "dev" ⟨1, "conflicts"⟩ initialFlowSt (by decide)⟩

/-- C7 amended: divergence (merge analysis NORMAL without FASTFORWARD, or a
non-zero exit of the non-fatal fast-forward call) raises a
DivergentBranchesError; the default error handling presents a warning
naming both branches and, when the divergent local branch is the one
checked out, offers a merge-instead recovery action whose effect is to
invoke the MergeBranch operation on the upstream refname. -/
theorem fastForward_divergence :
    (∀ repo branch upstream git st, branch.upstream = some upstream →
        repo.mergeAnalysisAt upstream.target (some branch.fullName) = { normal := true } →
        ∃ st2, FastForwardBranch.withGit repo branch git st
          = FlowOut.exit (.divergentBranches branch upstream) st2)
    ∧ (∀ repo branch upstream git st, branch.upstream = some upstream →
        repo.mergeAnalysisAt upstream.target (some branch.fullName)
          = { fastForward := true, normal := true } →
        (git.exitCode == 0) = false →
        ∃ st2, FastForwardBranch.withGit repo branch git st
          = FlowOut.exit (.divergentBranches branch upstream) st2)
    ∧ (∀ lb rb, lb.isCheckedOut = true →
        FastForwardBranch.onError (.divergentBranches lb rb)
          = .divergenceWarning lb.name rb.shorthand (some (.invokeMergeBranch rb.name))) := by
  refine ⟨?_, ?_, ?_⟩
  · intro repo branch upstream git st hup hana
    simp [FastForwardBranch.withGit, Flow.flowEnterWorkerThread, Flow.record, Flow.exit,
      Flow.pure, hup, hana, AnalysisFlags.upToDate]
  · intro repo branch upstream git st hup hana hexit
    have hne : ¬(git.exitCode = 0) := by simpa using hexit
    cases hco : branch.isCheckedOut <;>
      simp [FastForwardBranch.withGit, Flow.flowEnterWorkerThread, Flow.flowEnterUiThread,
        Flow.record, Flow.pure, Flow.exit, Flow.orFx, Flow.flowCallGit, hup, hana, hco,
        bne, hexit, hne, AnalysisFlags.upToDate]
  · intro lb rb hco
    simp [FastForwardBranch.onError, hco]

/-- C7 counterexample: on a divergent branch that is not checked out, the
operation fails with the divergence error but the default handling offers
no merge-instead recovery action, so the offer is not made on every
divergent invocation. -/
theorem fastForward_offer_requires_checkout_cex :
    (FastForwardBranch.run repoC7 "topic" {} {}).outcome
      = Outcome.failed (.divergentBranches branchC7 upstreamC7)
    ∧ FastForwardBranch.onError (.divergentBranches branchC7 upstreamC7)
      = .divergenceWarning "topic" "origin/topic" Option.none := by
  constructor <;> decide

theorem fastForward_divergence_witness :
    (∃ st2, FastForwardBranch.withGit repoC7 branchC7 {} initialFlowSt
        = FlowOut.exit (.divergentBranches branchC7 upstreamC7) st2)
    ∧ (∃ st2, FastForwardBranch.withGit repoC7ff branchC7 ⟨1, "diverged"⟩ initialFlowSt
        = FlowOut.exit (.divergentBranches branchC7 upstreamC7) st2)
    ∧ FastForwardBranch.onError (.divergentBranches branchC7co upstreamC7)
      = .divergenceWarning "topic" "origin/topic"
          (some (.invokeMergeBranch "refs/remotes/origin/topic")) :=
  ⟨fastForward_divergence.1 repoC7 branchC7 upstreamC7 {} initialFlowSt rfl rfl,
   fastForward_divergence.2.1 repoC7ff branchC7 upstreamC7 ⟨1, "diverged"⟩ initialFlowSt
     rfl rfl (by decide),
   fastForward_divergence.2.2 branchC7co upstreamC7 rfl⟩

/-- C8: when the external stash apply/pop command exits non-zero and the
refreshed index reports conflicts, ApplyStash completes without raising, the
status message reports the stash as applied with conflicts, a
conflict-specific warning is shown whose text mentions the retained stash
exactly when deletion was requested, and the only external command issued is
the apply/pop itself, so the stash is never separately dropped. -/
theorem applyStash_conflicts (repo : RepoState) (tb : Toolbox) (sid : Oid)
    (tickDelete del : Bool) (inp : ApplyStashInputs)
    (hpc : repo.anyConflicts = false) (hps : repo.anyStagedChanges = false)
    (hdlg : inp.dlgAns = some del)
    (hexit : (inp.git.exitCode == 0) = false)
    (hconf : inp.conflictsAfterApply = true) :
    (ApplyStash.run repo tb sid tickDelete false inp).outcome = Outcome.completed
    ∧ (ApplyStash.run repo tb sid tickDelete false inp).postStatus
        = some (.stashAppliedWithConflicts (tb.stripStashMessage (repo.commitMessage sid)))
    ∧ Event.showWarningBox .conflictsCausedByStashTitle
          ([.stashConflictsWarning (tb.stripStashMessage (repo.commitMessage sid))]
            ++ (if del then [Msg.stashNotDeletedNote] else []))
        ∈ ((ApplyStash.run repo tb sid tickDelete false inp).trace.map TraceEntry.ev)
    ∧ (∀ t ∈ (ApplyStash.run repo tb sid tickDelete false inp).trace, ∀ args af,
        t.ev = Event.callGit args af →
        args = ["stash", if del then "pop" else "apply", "--index",
                toString (repo.findStashIndex sid)]
        ∧ af = false) := by
  have hne : ¬(inp.git.exitCode = 0) := by simpa using hexit
  cases hd : del <;> cases htf : inp.trashFile <;>
    refine ⟨?_, ?_, ?_, ?_⟩ <;>
      simp [ApplyStash.run, runTask, unmetPrereqs, ApplyStash.prereqs, TaskPrereqs.none,
        runFlow, ApplyStash.flow, Flow.flowDialog, Flow.record, Flow.pure, Flow.exit,
        Flow.orFx, Flow.setJumpTo, Flow.setPostStatus, Flow.flowCallGit,
        Flow.flowEnterWorkerThread, Flow.flowEnterUiThread, backupStash,
        initialFlowSt, hpc, hps, hdlg, hexit, hne, hconf, hd, htf, bne]

theorem applyStash_conflicts_witness :
    (ApplyStash.run repoC8 {} "sid1" true false inpC8).outcome = Outcome.completed
    ∧ (ApplyStash.run repoC8 {} "sid1" true false inpC8).postStatus
        = some (.stashAppliedWithConflicts "stash msg")
    ∧ Event.showWarningBox .conflictsCausedByStashTitle
          [.stashConflictsWarning "stash msg", Msg.stashNotDeletedNote]
        ∈ ((ApplyStash.run repoC8 {} "sid1" true false inpC8).trace.map TraceEntry.ev)
    ∧ (∀ t ∈ (ApplyStash.run repoC8 {} "sid1" true false inpC8).trace, ∀ args af,
        t.ev = Event.callGit args af →
        args = ["stash", "pop", "--index", toString (repoC8.findStashIndex "sid1")]
        ∧ af = false) :=
  applyStash_conflicts repoC8 {} "sid1" true true inpC8 rfl rfl rfl (by decide) rfl

/-- C9 amended: in both stash-deleting paths, backupStash is invoked before
the stash-deleting external command; whenever the Trash service yields a
file, the trace records the backup, carrying the full stash commit id and
the original stash message, strictly before the git stash drop or pop
invocation. -/
theorem stash_backup_before_delete (repo : RepoState) (tb : Toolbox) (sid : Oid) (f : String)
    (ans : ConfirmAnswer) (git : GitOutcome) (tickDelete : Bool) (inp : ApplyStashInputs)
    (hacc : ans.accepted = true)
    (hpc : repo.anyConflicts = false) (hps : repo.anyStagedChanges = false)
    (hdlg : inp.dlgAns = some true) (htf2 : inp.trashFile = some f) :
    (DropStash.run repo tb sid ans (some f) git).trace
      = [⟨.confirm (.askDropStash (tb.stripStashMessage (repo.commitMessage sid))), {}⟩,
         ⟨.backupWritten f sid (repo.commitMessage sid), {}⟩,
         ⟨.callGit ["stash", "drop",
            "stash@" ++ "\x7b" ++ toString (repo.findStashIndex sid) ++ "\x7d"] true,
          { refs := true }⟩]
    ∧ (ApplyStash.run repo tb sid tickDelete false inp).trace.take 3
      = [⟨.dialog (.applyStashBox (tb.stripStashMessage (repo.commitMessage sid)) tickDelete), {}⟩,
         ⟨.backupWritten f sid (repo.commitMessage sid), { workdir := true, refs := true }⟩,
         ⟨.callGit ["stash", "pop", "--index", toString (repo.findStashIndex sid)] false,
          { workdir := true, refs := true }⟩] := by
  constructor
  · cases he : git.exitCode == 0 <;>
      simp [DropStash.run, runTask, unmetPrereqs, TaskPrereqs.none, runFlow, DropStash.flow,
        Flow.flowConfirm, Flow.record, Flow.pure, Flow.exit, Flow.orFx, Flow.setPostStatus,
        Flow.flowCallGit, backupStash, initialFlowSt, hacc, he, bne,
        TaskEffects.union]
  · by_cases hz : inp.git.exitCode = 0 <;> cases hc : inp.conflictsAfterApply <;>
      simp [ApplyStash.run, runTask, unmetPrereqs, ApplyStash.prereqs, TaskPrereqs.none,
        runFlow, ApplyStash.flow, Flow.flowDialog, Flow.record, Flow.pure, Flow.exit,
        Flow.orFx, Flow.setJumpTo, Flow.setPostStatus, Flow.flowCallGit,
        Flow.flowEnterWorkerThread, Flow.flowEnterUiThread, backupStash,
        initialFlowSt, hpc, hps, hdlg, htf2, hz, hc, bne, TaskEffects.union]

/-- C9 counterexample: when the Trash service yields no file, DropStash
issues the stash-deleting command with no backup written at all: the entire
trace is the confirmation followed by the git stash drop call. -/
theorem backupStash_no_trash_file_cex :
    (DropStash.run repoC9 {} "sid123" {} Option.none {}).trace.map TraceEntry.ev
      = [.confirm (.askDropStash "WIP on main: things"),
         .callGit ["stash", "drop", "stash@\x7b0\x7d"] true] := by
  decide

theorem stash_backup_before_delete_witness :
    (DropStash.run repoC9w {} "s1" {} (some "DELETED_STASH.txt") {}).trace
      = [⟨.confirm (.askDropStash "stash m1"), {}⟩,
         ⟨.backupWritten "DELETED_STASH.txt" "s1" "stash m1", {}⟩,
         ⟨.callGit ["stash", "drop",
            "stash@" ++ "\x7b" ++ toString (repoC9w.findStashIndex "s1") ++ "\x7d"] true,
          { refs := true }⟩]
    ∧ (ApplyStash.run repoC9w {} "s1" true false inpC9w).trace.take 3
      = [⟨.dialog (.applyStashBox "stash m1" true), {}⟩,
         ⟨.backupWritten "DELETED_STASH.txt" "s1" "stash m1", { workdir := true, refs := true }⟩,
         ⟨.callGit ["stash", "pop", "--index", toString (repoC9w.findStashIndex "s1")] false,
          { workdir := true, refs := true }⟩] :=
  stash_backup_before_delete repoC9w {} "s1" "DELETED_STASH.txt" {} {} true inpC9w
    rfl rfl rfl rfl rfl

/-- C10: NewStash with the keep-intact checkbox ticked leaves the working
directory untouched: the restore backend call never happens and the final
EffectSet is exactly Refs; with the checkbox unticked the restore call
happens and the Workdir effect joins Refs. -/
theorem newStash_keep_intact (repo : RepoState) (paths : List String) (d : StashDialogResult)
    (h1 : repo.statusPaths ≠ [])
    (h2 : ¬∀ p ∈ repo.statusPaths, p ∈ repo.submodules)
    (hpc : repo.anyConflicts = false) (hpu : repo.headIsUnborn = false) :
    (d.keepIntact = true →
      (NewStash.run repo paths (some d)).outcome = Outcome.completed
      ∧ (NewStash.run repo paths (some d)).effects = { refs := true }
      ∧ (∀ t ∈ (NewStash.run repo paths (some d)).trace, ∀ ps,
          t.ev ≠ Event.restoreFilesFromHead ps))
    ∧ (d.keepIntact = false →
      (NewStash.run repo paths (some d)).effects = { refs := true, workdir := true }
      ∧ Event.restoreFilesFromHead d.tickedPaths
          ∈ (NewStash.run repo paths (some d)).trace.map TraceEntry.ev) := by
  constructor <;> intro hk <;>
    simp [NewStash.run, runTask, unmetPrereqs, NewStash.prereqs, TaskPrereqs.none, runFlow,
      NewStash.flow, Flow.flowDialog, Flow.record, Flow.pure, Flow.exit, Flow.orFx,
      Flow.setPostStatus, Flow.flowEnterWorkerThread, initialFlowSt,
      h1, h2, hpc, hpu, hk, TaskEffects.union]

theorem newStash_keep_intact_witness :
    ((NewStash.run repoC10 [] (some dKeepC10)).outcome = Outcome.completed
      ∧ (NewStash.run repoC10 [] (some dKeepC10)).effects = { refs := true }
      ∧ (∀ t ∈ (NewStash.run repoC10 [] (some dKeepC10)).trace, ∀ ps,
          t.ev ≠ Event.restoreFilesFromHead ps))
    ∧ ((NewStash.run repoC10 [] (some dRestoreC10)).effects = { refs := true, workdir := true }
      ∧ Event.restoreFilesFromHead ["a.txt"]
          ∈ (NewStash.run repoC10 [] (some dRestoreC10)).trace.map TraceEntry.ev) :=
  ⟨(newStash_keep_intact repoC10 [] dKeepC10 (by decide) (by decide) rfl rfl).1 rfl,
   (newStash_keep_intact repoC10 [] dRestoreC10 (by decide) (by decide) rfl rfl).2 rfl⟩

